import Mathlib

set_option autoImplicit false

/-!
Verification of the Qimen chart-computation engine (`src/core/paipan_engine.py`,
`src/core/models.py`) against its natural-language specification.

The engine is embedded shallowly:

* the finite symbol alphabets that the Python code represents as Chinese
  one-character strings (heavenly stems, earthly branches, star / gate / god
  names) become inductive enumerations;
* Python lists indexed 0..9 become `List`s of length 10, updated with
  `List.set` and read with a `getD`-style helper, mirroring the source exactly;
* Python `%` on possibly-negative ints is `Int.emod` (both produce the
  canonical non-negative representative for a positive modulus);
* fallible lookups (`next(...)` / `raise ValueError`) return `Option`;
* the reference-data document `data.json` is loaded at engine construction and
  is absent from the repository; its tables are modelled from the spec
  (section 2: sexagenary-cycle table, solar-term pattern table, star/gate
  catalogs with home palaces, branch list) with the standard contents those
  descriptions determine.
-/

/-- The ten heavenly stems 甲乙丙丁戊己庚辛壬癸. -/
inductive Stem where
  | jia | yiS | bing | ding | wuS | jiS | geng | xinS | ren | gui
  deriving DecidableEq, Repr, Fintype

/-- The twelve earthly branches 子丑寅卯辰巳午未申酉戌亥. -/
inductive Branch where
  | zi | chou | yinB | mao | chen | siB | wuB | wei | shen | you | xu | hai
  deriving DecidableEq, Repr, Fintype

/-- Dun polarity: 阳遁 (yang) or 阴遁 (yin). -/
inductive Dun where
  | yang | yinD
  deriving DecidableEq, Repr, Fintype

/-- The nine stars 蓬任冲辅英芮柱心禽 (by their short names used in the code). -/
inductive StarName where
  | peng | renX | chong | fuX | ying | rui | zhuX | xinX | qin
  deriving DecidableEq, Repr, Fintype

/-- The eight gates 休生伤杜景死惊开. -/
inductive GateName where
  | xiu | shengG | shang | duG | jingG | siG | jingM | kai
  deriving DecidableEq, Repr, Fintype

/-- The eight gods 符蛇阴合虎武地天. -/
inductive GodName where
  | fuG | she | yinG | he | hu | wuG | di | tianG
  deriving DecidableEq, Repr, Fintype

/-- The three eras (元): 上 / 中 / 下. -/
inductive Yuan where
  | shangY | zhongY | xiaY
  deriving DecidableEq, Repr, Fintype

/-- The 24 solar terms, in the order 冬至 小寒 大寒 立春 雨水 惊蛰 春分 清明
谷雨 立夏 小满 芒种 夏至 小暑 大暑 立秋 处暑 白露 秋分 寒露 霜降 立冬 小雪 大雪. -/
inductive JieQi where
  | dongzhi | xiaohan | dahan | lichun | yushui | jingzhe
  | chunfen | qingming | guyu | lixia | xiaoman | mangzhong
  | xiazhi | xiaoshu | dashu | liqiu | chushu | bailu
  | qiufen | hanlu | shuangjiang | lidong | xiaoxue | daxue
  deriving DecidableEq, Repr, Fintype

/-- 局数信息: dun polarity plus pattern number (源: `ju_shu_info` dict
`{"遁": ..., "局": ...}`). -/
structure JuShuInfo where
  dun : Dun
  ju : Nat
  deriving DecidableEq, Repr

/-- 旬 info: decade-head branch and the hidden leading stem (源: `xun` dict
`{"zhi": ..., "jun": ...}` of a `liuShiJiaZi` entry). -/
structure Xun where
  zhi : Branch
  jun : Stem
  deriving DecidableEq, Repr

/-- `LUO_SHU_PATH = [1, 8, 3, 4, 9, 2, 7, 6]` (paipan_engine.py line 8). -/
def LUO_SHU_PATH : List Nat := [1, 8, 3, 4, 9, 2, 7, 6]

/-- Read slot `i` of a 10-slot Python list of lists (`l[i]`). -/
def getL {α : Type} (l : List (List α)) (i : Nat) : List α := l.getD i []

/-- `stems_order = ["戊","己","庚","辛","壬","癸","丁","丙","乙"]`
(`_layout_di_pan`, line 113). -/
def stems_order : List Stem :=
  [.wuS, .jiS, .geng, .xinS, .ren, .gui, .ding, .bing, .yiS]

/-- Palace index hit by the i-th stem of the walk in `_layout_di_pan`
(lines 117-123): yang `(start_pos + i - 1) % 9 + 1`, yin
`(start_pos - i - 1 + 9) % 9 + 1`, with Python `%` semantics (`Int.emod`). -/
def diPanIndex (dun : Dun) (startPos : Nat) (i : Nat) : Nat :=
  match dun with
  | .yang => (((startPos : Int) + i - 1) % 9).toNat + 1
  | .yinD => (((startPos : Int) - i - 1 + 9) % 9).toNat + 1

/-- The placement loop of `_layout_di_pan` (lines 114-124), before the
palace-5 → palace-2 mirror copy. -/
def layout_di_pan_raw (info : JuShuInfo) : List (List Stem) :=
  (List.range 9).foldl
    (fun dp i =>
      let p := diPanIndex info.dun info.ju i
      dp.set p (getL dp p ++ [stems_order.getD i .jia]))
    (List.replicate 10 [])

/-- `_layout_di_pan` (lines 112-129): place the nine stems, then
`if di_pan[5]: di_pan[2].extend(di_pan[5])`. -/
def layout_di_pan (info : JuShuInfo) : List (List Stem) :=
  let dp := layout_di_pan_raw info
  if getL dp 5 ≠ [] then dp.set 2 (getL dp 2 ++ getL dp 5) else dp

/-- The palace formula exactly as the spec states it (spec 4.2 and claim C3):
the i-th stem goes to palace `((number-1+i) mod 9)+1` under Yang and to
palace `((number-1-i) mod 9)+1` under Yin, with the mathematical
(non-negative) modulus. -/
def specDiPanPalace (dun : Dun) (number : Nat) (i : Nat) : Nat :=
  match dun with
  | .yang => (((number : Int) - 1 + i) % 9).toNat + 1
  | .yinD => (((number : Int) - 1 - i) % 9).toNat + 1

example : layout_di_pan ⟨.yang, 2⟩ =
    [[], [.yiS], [.wuS, .xinS], [.jiS], [.geng], [.xinS], [.ren], [.gui],
     [.ding], [.bing]] := by decide

/-- C3: for polarity `dun` and pattern number `ju` in 1..9, the i-th stem
(i = 0..8) of the fixed 9-stem sequence is assigned to palace
`((number-1+i) mod 9)+1` under Yang and `((number-1-i) mod 9)+1` under Yin
(the code palace index agrees with the spec formula, and the stem really is
the sole occupant of that palace before the mirror step), and afterwards the
stem that landed in palace 5 is additionally appended to palace 2's
earth-plate stem list. -/
theorem chart_c3_di_pan_walk (dun : Dun) (ju : Nat) (h1 : 1 ≤ ju) (h2 : ju ≤ 9)
    (i : Nat) (hi : i < 9) :
    diPanIndex dun ju i = specDiPanPalace dun ju i ∧
    getL (layout_di_pan_raw ⟨dun, ju⟩) (specDiPanPalace dun ju i) =
      [stems_order.getD i .jia] ∧
    layout_di_pan ⟨dun, ju⟩ =
      (layout_di_pan_raw ⟨dun, ju⟩).set 2
        (getL (layout_di_pan_raw ⟨dun, ju⟩) 2 ++
          getL (layout_di_pan_raw ⟨dun, ju⟩) 5) := by
  revert i
  interval_cases ju <;> cases dun <;> decide

/-- Witness for C3 at Yang pattern 2, stem index 0. -/
theorem chart_c3_di_pan_walk_witness :
    (1 ≤ 2 ∧ 2 ≤ 9 ∧ 0 < 9) ∧
    (diPanIndex Dun.yang 2 0 = specDiPanPalace Dun.yang 2 0 ∧
     getL (layout_di_pan_raw ⟨Dun.yang, 2⟩) (specDiPanPalace Dun.yang 2 0) =
       [stems_order.getD 0 .jia] ∧
     layout_di_pan ⟨Dun.yang, 2⟩ =
       (layout_di_pan_raw ⟨Dun.yang, 2⟩).set 2
         (getL (layout_di_pan_raw ⟨Dun.yang, 2⟩) 2 ++
           getL (layout_di_pan_raw ⟨Dun.yang, 2⟩) 5)) :=
  ⟨⟨by decide, by decide, by decide⟩,
   chart_c3_di_pan_walk Dun.yang 2 (by decide) (by decide) 0 (by decide)⟩

/-- C5: for every valid pattern info each palace 1-9 receives exactly one
stem before the palace-5 → palace-2 mirror copy, each of the 9 fixed stems
occupies exactly one palace, and the mirror step appends palace 5's stem to
palace 2 leaving every other palace unchanged. -/
theorem chart_c5_stem_coverage (dun : Dun) (ju : Nat) (h1 : 1 ≤ ju) (h2 : ju ≤ 9) :
    (∀ p, p < 10 → 1 ≤ p → p ≤ 9 →
      (getL (layout_di_pan_raw ⟨dun, ju⟩) p).length = 1) ∧
    (∀ s ∈ stems_order,
      ((List.range' 1 9).filter
        (fun p => s ∈ getL (layout_di_pan_raw ⟨dun, ju⟩) p)).length = 1) ∧
    getL (layout_di_pan ⟨dun, ju⟩) 2 =
      getL (layout_di_pan_raw ⟨dun, ju⟩) 2 ++ getL (layout_di_pan_raw ⟨dun, ju⟩) 5 ∧
    (∀ p, p < 10 → p ≠ 2 →
      getL (layout_di_pan ⟨dun, ju⟩) p = getL (layout_di_pan_raw ⟨dun, ju⟩) p) := by
  interval_cases ju <;> cases dun <;> decide

/-- Witness for C5 at Yin pattern 7. -/
theorem chart_c5_stem_coverage_witness :
    (1 ≤ 7 ∧ 7 ≤ 9) ∧
    ((∀ p, p < 10 → 1 ≤ p → p ≤ 9 →
      (getL (layout_di_pan_raw ⟨Dun.yinD, 7⟩) p).length = 1) ∧
    (∀ s ∈ stems_order,
      ((List.range' 1 9).filter
        (fun p => s ∈ getL (layout_di_pan_raw ⟨Dun.yinD, 7⟩) p)).length = 1) ∧
    getL (layout_di_pan ⟨Dun.yinD, 7⟩) 2 =
      getL (layout_di_pan_raw ⟨Dun.yinD, 7⟩) 2 ++
        getL (layout_di_pan_raw ⟨Dun.yinD, 7⟩) 5 ∧
    (∀ p, p < 10 → p ≠ 2 →
      getL (layout_di_pan ⟨Dun.yinD, 7⟩) p =
        getL (layout_di_pan_raw ⟨Dun.yinD, 7⟩) p)) :=
  ⟨⟨by decide, by decide⟩, chart_c5_stem_coverage Dun.yinD 7 (by decide) (by decide)⟩

/-- One entry of the sexagenary-cycle table (`liuShiJiaZi` in `data.json`):
stem, branch, era, decade info and the decade's two void branches. -/
structure JiaZi where
  gan : Stem
  zhi : Branch
  yuan : Yuan
  xun : Xun
  kong : List Branch
  deriving DecidableEq, Repr

/-- The stems in cycle order 甲乙丙丁戊己庚辛壬癸. -/
def stemCycle : List Stem :=
  [.jia, .yiS, .bing, .ding, .wuS, .jiS, .geng, .xinS, .ren, .gui]

/-- The branches in cycle order 子丑寅卯辰巳午未申酉戌亥. -/
def branchCycle : List Branch :=
  [.zi, .chou, .yinB, .mao, .chen, .siB, .wuB, .wei, .shen, .you, .xu, .hai]

/-- Decade data of the six 旬: head branch, hidden leading stem (遁干) and the
two void branches — 甲子(戊,戌亥) 甲戌(己,申酉) 甲申(庚,午未) 甲午(辛,辰巳)
甲辰(壬,寅卯) 甲寅(癸,子丑). -/
def xunOfDecade (d : Nat) : Xun × List Branch :=
  match d with
  | 0 => (⟨.zi, .wuS⟩, [.xu, .hai])
  | 1 => (⟨.xu, .jiS⟩, [.shen, .you])
  | 2 => (⟨.shen, .geng⟩, [.wuB, .wei])
  | 3 => (⟨.wuB, .xinS⟩, [.chen, .siB])
  | 4 => (⟨.chen, .ren⟩, [.yinB, .mao])
  | _ => (⟨.yinB, .gui⟩, [.zi, .chou])

/-- Modelled from the spec: the sexagenary-cycle reference table
("60 stem+branch entries with era/decade-head/void branches", spec section 2).
`data.json` is not in the repository, so the table carries the standard
sexagenary contents: entry n pairs stem n mod 10 with branch n mod 12; the
era of each 5-day block cycles 上中下; decade data as in `xunOfDecade`. -/
def liuShiJiaZi : List JiaZi :=
  (List.range 60).map (fun n =>
    { gan := stemCycle.getD (n % 10) .jia
      zhi := branchCycle.getD (n % 12) .zi
      yuan := [Yuan.shangY, Yuan.zhongY, Yuan.xiaY].getD ((n / 5) % 3) .shangY
      xun := (xunOfDecade (n / 10)).1
      kong := (xunOfDecade (n / 10)).2 })

/-- One entry of the solar-term pattern table (`jieQiJuShu`). -/
structure JieQiInfo where
  yinyang : Dun
  jv : Yuan → Nat

/-- Modelled from the spec: the solar-term → pattern-number reference table
("solar-term→pattern-number table", spec section 2), standard contents:
yang dun from 冬至 through 芒种, yin dun from 夏至 through 大雪, with the
usual three pattern numbers (上/中/下 era) per term. -/
def jieQiJuShu (j : JieQi) : JieQiInfo :=
  let mk : Dun → Nat → Nat → Nat → JieQiInfo := fun d a b c =>
    ⟨d, fun y => match y with | .shangY => a | .zhongY => b | .xiaY => c⟩
  match j with
  | .dongzhi => mk .yang 1 7 4
  | .xiaohan => mk .yang 2 8 5
  | .dahan => mk .yang 3 9 6
  | .lichun => mk .yang 8 5 2
  | .yushui => mk .yang 9 6 3
  | .jingzhe => mk .yang 1 7 4
  | .chunfen => mk .yang 3 9 6
  | .qingming => mk .yang 4 1 7
  | .guyu => mk .yang 5 2 8
  | .lixia => mk .yang 4 1 7
  | .xiaoman => mk .yang 5 2 8
  | .mangzhong => mk .yang 6 3 9
  | .xiazhi => mk .yinD 9 3 6
  | .xiaoshu => mk .yinD 8 2 5
  | .dashu => mk .yinD 7 1 4
  | .liqiu => mk .yinD 2 5 8
  | .chushu => mk .yinD 1 4 7
  | .bailu => mk .yinD 9 3 6
  | .qiufen => mk .yinD 7 1 4
  | .hanlu => mk .yinD 6 9 3
  | .shuangjiang => mk .yinD 5 8 2
  | .lidong => mk .yinD 6 9 3
  | .xiaoxue => mk .yinD 5 8 2
  | .daxue => mk .yinD 4 7 1

/-- A `jiuXing` catalog entry: star name plus home palace (`guxiang`). -/
structure StarEntry where
  cn : StarName
  guxiang : Nat
  deriving DecidableEq, Repr

/-- A `baMen` catalog entry: gate name plus home palace (`guxiang`). -/
structure GateEntry where
  cn : GateName
  guxiang : Nat
  deriving DecidableEq, Repr

/-- Modelled from the spec: the nine-star catalog with home palaces
("star/gate catalogs with home-palace numbers", spec section 2): 蓬1 任8 冲3
辅4 英9 芮2 柱7 心6, and the non-traveling 禽 at the center palace 5. -/
def jiuXing : List StarEntry :=
  [⟨.peng, 1⟩, ⟨.renX, 8⟩, ⟨.chong, 3⟩, ⟨.fuX, 4⟩, ⟨.ying, 9⟩, ⟨.rui, 2⟩,
   ⟨.zhuX, 7⟩, ⟨.xinX, 6⟩, ⟨.qin, 5⟩]

/-- Modelled from the spec: the eight-gate catalog with home palaces
("star/gate catalogs with home-palace numbers", spec section 2): 休1 生8 伤3
杜4 景9 死2 惊7 开6. -/
def baMen : List GateEntry :=
  [⟨.xiu, 1⟩, ⟨.shengG, 8⟩, ⟨.shang, 3⟩, ⟨.duG, 4⟩, ⟨.jingG, 9⟩, ⟨.siG, 2⟩,
   ⟨.jingM, 7⟩, ⟨.kai, 6⟩]

/-- Modelled from the spec: the branch list reference table (`diZhi`),
standard order 子丑寅卯辰巳午未申酉戌亥. -/
def di_zhi_order : List Branch := branchCycle

/-- `_find_yuan` (lines 102-106): scan the sexagenary table for the day
pillar; `None` models the `raise ValueError` path. -/
def find_yuan (riGan : Stem) (riZhi : Branch) : Option Yuan :=
  (liuShiJiaZi.find? (fun j => j.gan = riGan ∧ j.zhi = riZhi)).map (·.yuan)

/-- `_find_ju_shu` (lines 108-110). -/
def find_ju_shu (jieqi : JieQi) (yuan : Yuan) : JuShuInfo :=
  let info := jieQiJuShu jieqi
  ⟨info.yinyang, info.jv yuan⟩

/-- `_find_shi_chen_xun` (lines 131-135). -/
def find_shi_chen_xun (gan : Stem) (zhi : Branch) : Option Xun :=
  (liuShiJiaZi.find? (fun j => j.gan = gan ∧ j.zhi = zhi)).map (·.xun)

/-- The 甲-substitution of `_find_stem_palace` (lines 138-140). -/
def resolveStem (s : Stem) (x : Xun) : Stem :=
  if s = .jia then x.jun else s

/-- The scan loop of `_find_stem_palace` (lines 142-146): first palace
1..9 whose earth-plate stem list contains the target, else -1. -/
def scanStemPalace (t : Stem) (diPan : List (List Stem)) : Int :=
  match (List.range' 1 9).find? (fun i => t ∈ getL diPan i) with
  | some i => (i : Int)
  | none => -1

/-- `_find_stem_palace` (lines 137-146). -/
def find_stem_palace (s : Stem) (diPan : List (List Stem)) (x : Xun) : Int :=
  scanStemPalace (resolveStem s x) diPan

/-- `_find_zhi_fu_zhi_shi` (lines 148-166): chief star entry, chief gate
name, and the 符头 palace; `None` models the unreachable lookup failures. -/
def find_zhi_fu_zhi_shi (x : Xun) (diPan : List (List Stem)) :
    Option (StarEntry × GateName × Int) :=
  let fuTou := scanStemPalace x.jun diPan
  if fuTou = 5 then
    match jiuXing.find? (fun s => s.cn = .qin),
        baMen.find? (fun g => g.guxiang = 2) with
    | some zf, some zs => some (zf, zs.cn, fuTou)
    | _, _ => none
  else
    match jiuXing.find? (fun s => (s.guxiang : Int) = fuTou),
        baMen.find? (fun g => (g.guxiang : Int) = fuTou) with
    | some zf, some og => some (zf, og.cn, fuTou)
    | _, _ => none


/-- `gods_order = ["符","蛇","阴","合","虎","武","地","天"]`
(`_layout_ba_shen`, line 170). -/
def gods_order : List GodName :=
  [.fuG, .she, .yinG, .he, .hu, .wuG, .di, .tianG]

/-- The rotation of `_layout_ba_shen` (lines 178-189) once the anchor
palace is known: place 符 at the anchor, locate the anchor on the flying
path (`LUO_SHU_PATH.index`, `none` models the `ValueError` on a palace off
the path), then walk the remaining 7 gods forward for yang, backward for
yin.  Slots hold `none` where Python keeps the initial `""`. -/
def baShenRotation (dun : Dun) (anchor : Nat) : Option (List (Option GodName)) :=
  match LUO_SHU_PATH.findIdx? (fun q => q = anchor) with
  | none => none
  | some pathIndex =>
    let layout := (List.replicate 10 (none : Option GodName)).set anchor (some .fuG)
    some ((List.range' 1 7).foldl (fun l i =>
      let cur := match dun with
        | .yang => LUO_SHU_PATH.getD ((pathIndex + i) % 8) 0
        | .yinD => LUO_SHU_PATH.getD ((pathIndex + 8 - i) % 8) 0
      l.set cur (some (gods_order.getD i .fuG))) layout)

/-- `_layout_ba_shen` (lines 168-191): find the hour stem's palace (the
`raise` on -1 modelled by `none`) and rotate the god sequence from there. -/
def layout_ba_shen (shiGan : Stem) (diPan : List (List Stem)) (info : JuShuInfo)
    (xun : Xun) : Option (List (Option GodName)) :=
  let p := find_stem_palace shiGan diPan xun
  if p = -1 then none
  else baShenRotation info.dun p.toNat

/-- `stars_order_cn = ["蓬","任","冲","辅","英","芮","柱","心"]`
(`_layout_tian_pan_and_stars`, line 203). -/
def stars_order_cn : List StarName :=
  [.peng, .renX, .chong, .fuX, .ying, .rui, .zhuX, .xinX]

/-- Python `stars_order_cn.index(...)`. -/
def starIdx (c : StarName) : Nat := stars_order_cn.findIdx (fun s => s = c)

/-- Home palace of a star, via the `jiuXing` catalog (`next(s for s in
self.data['jiuXing'] if s['cn'] == ...)['guxiang']`); the catalog is total,
so the default 0 is never taken. -/
def starGuxiang (c : StarName) : Nat :=
  ((jiuXing.find? (fun e => e.cn = c)).map (·.guxiang)).getD 0

/-- The 8-step walk of `_layout_tian_pan_and_stars` (lines 210-216): at step
i the star `stars_order_cn[(start+i) % 8]` is appended at path palace
`LUO_SHU_PATH[(path_start+i) % 8]` and that star's home earth-plate stems
are copied there. -/
def tian_pan_walk (startStarIndex pathStartIndex : Nat)
    (diPan : List (List Stem)) : List (List Stem) × List (List StarName) :=
  (List.range 8).foldl
    (fun acc i =>
      let cn := stars_order_cn.getD ((startStarIndex + i) % 8) .peng
      let pp := LUO_SHU_PATH.getD ((pathStartIndex + i) % 8) 0
      (acc.1.set pp (getL acc.1 pp ++ getL diPan (starGuxiang cn)),
       acc.2.set pp (getL acc.2 pp ++ [cn])))
    (List.replicate 10 [], List.replicate 10 [])

/-- The 芮-palace scan (lines 218-222): first index (starting at 0) whose
star list contains 芮, else -1. -/
def findRuiPalace (stars : List (List StarName)) : Int :=
  match stars.findIdx? (fun l => StarName.rui ∈ l) with
  | some i => (i : Int)
  | none => -1

/-- The rotation of `_layout_tian_pan_and_stars` once the anchor palace and
starting star index are known (lines 208-229): locate the anchor on the
path, walk 8 steps, append the dual 禽 star at the 芮 palace, then force
禽 and its home earth-plate stems onto palace 5. -/
def tianPanRotation (startStarIndex anchorPalace : Nat)
    (diPan : List (List Stem)) :
    Option (List (List Stem) × List (List StarName)) :=
  match LUO_SHU_PATH.findIdx? (fun q => q = anchorPalace) with
  | none => none
  | some pathStartIndex =>
    let w := tian_pan_walk startStarIndex pathStartIndex diPan
    let ruiPalace := findRuiPalace w.2
    let stars1 :=
      if ruiPalace ≠ -1 then
        w.2.set ruiPalace.toNat (getL w.2 ruiPalace.toNat ++ [.qin])
      else w.2
    let stems2 := w.1.set 5 (getL w.1 5 ++ getL diPan (starGuxiang .qin))
    let stars2 := stars1.set 5 (getL stars1 5 ++ [.qin])
    some (stems2, stars2)

/-- `_layout_tian_pan_and_stars` (lines 193-230): find the anchor (the hour
stem's palace; `raise` on -1 modelled by `none`), pick the starting star
index (substituting 芮 for the non-traveling 禽), and rotate. -/
def layout_tian_pan_and_stars (shiGan : Stem) (diPan : List (List Stem))
    (zhiFuStar : StarEntry) (xun : Xun) :
    Option (List (List Stem) × List (List StarName)) :=
  let zhiFuPalace := find_stem_palace shiGan diPan xun
  if zhiFuPalace = -1 then none
  else
    tianPanRotation
      (if zhiFuStar.cn ≠ .qin then starIdx zhiFuStar.cn else starIdx .rui)
      zhiFuPalace.toNat diPan

/-- `men_order_cn = ["休","生","伤","杜","景","死","惊","开"]`
(`_layout_ba_men`, line 247). -/
def men_order_cn : List GateName :=
  [.xiu, .shengG, .shang, .duG, .jingG, .siG, .jingM, .kai]

/-- Python `di_zhi_order.index(...)`. -/
def branchIdx (b : Branch) : Nat := di_zhi_order.findIdx (fun z => z = b)

/-- Home palace of a gate, via the `baMen` catalog; the catalog is total, so
the default 0 is never taken. -/
def gateGuxiang (c : GateName) : Nat :=
  ((baMen.find? (fun e => e.cn = c)).map (·.guxiang)).getD 0

/-- The shifted anchor palace of `_layout_ba_men` (lines 235-245): the chief
gate's home palace moved by the branch offset along the 1..9 ring (yang
forward, yin backward), remapped to 2 if it lands on 5. -/
def zhiShiLuoGong (shiZhi xunZhi : Branch) (zhiShi : GateName) (dun : Dun) : Nat :=
  let offset := (((branchIdx shiZhi : Int) - branchIdx xunZhi + 12) % 12).toNat
  let startPalace := gateGuxiang zhiShi
  let lg := match dun with
    | .yang => (((startPalace : Int) + offset - 1) % 9).toNat + 1
    | .yinD => (((startPalace : Int) - offset - 1 + 9) % 9).toNat + 1
  if lg = 5 then 2 else lg

/-- `_layout_ba_men` (lines 232-256). -/
def layout_ba_men (shiZhi : Branch) (xunZhi : Branch) (zhiShi : GateName)
    (info : JuShuInfo) : Option (List (Option GateName)) :=
  let luoGong := zhiShiLuoGong shiZhi xunZhi zhiShi info.dun
  let menStart := men_order_cn.findIdx (fun g => g = zhiShi)
  match LUO_SHU_PATH.findIdx? (fun q => q = luoGong) with
  | none => none
  | some luoGongPathIndex =>
    some ((List.range 8).foldl (fun l i =>
      let cur := LUO_SHU_PATH.getD ((luoGongPathIndex + i) % 8) 0
      l.set cur (some (men_order_cn.getD ((menStart + i) % 8) .xiu)))
      (List.replicate 10 (none : Option GateName)))

/-- `_find_ma_xing` (lines 259-266): the fixed 4-group horse mapping, in the
source's dict order; `none` models the `""` default. -/
def ma_xing_map : List (Branch × Branch) :=
  [(.yinB, .shen), (.wuB, .shen), (.xu, .shen),
   (.hai, .siB), (.mao, .siB), (.wei, .siB),
   (.shen, .yinB), (.zi, .yinB), (.chen, .yinB),
   (.siB, .hai), (.you, .hai), (.chou, .hai)]

/-- `_find_ma_xing` (lines 259-266). -/
def find_ma_xing (shiZhi : Branch) : Option Branch :=
  (ma_xing_map.find? (fun e => e.1 = shiZhi)).map (·.2)

/-- `_find_kong_wang` (lines 268-275): day-void and hour-void branch lists
from the sexagenary table. -/
def find_kong_wang (ri shi : Stem × Branch) : Option (List Branch × List Branch) :=
  match find_shi_chen_xun ri.1 ri.2, find_shi_chen_xun shi.1 shi.2 with
  | some rx, some sx =>
    match liuShiJiaZi.find? (fun j => j.xun.zhi = rx.zhi),
        liuShiJiaZi.find? (fun j => j.xun.zhi = sx.zhi) with
    | some rj, some sj => some (rj.kong, sj.kong)
    | _, _ => none
  | _, _ => none

example : find_kong_wang (.jia, .wuB) (.jiS, .hai) =
    some ([.chen, .siB], [.chen, .siB]) := by decide

example : find_ma_xing .hai = some .siB := by decide

example : find_yuan .jia .wuB = some .shangY := by decide

/-- Annotation kinds: the `type` tags used by the annotation engine
(`liuji`, `rumu`, `rikong`, `shikong`, `shuangkong`, `yueling`, `maxing`). -/
inductive AnnType where
  | liuji | rumu | rikong | shikong | shuangkong | yueling | maxing
  deriving DecidableEq, Repr

/-- Annotation texts, structured counterparts of the Chinese strings the
source builds: `ganOnly g` is the bare stem string (the result of
`text.replace("入墓","")`), `jiXing g` is "X击刑", `ruMuT g` is "X入墓",
`riKongT`/`shiKongT` are "日空"/"时空", `shuangKongT z` is "双Z空",
`yueLingT`/`maXingT` are "月令"/"马星", and `shuangT t` prefixes 双 to `t`.
These builders are injective on the texts the engine constructs, so the
structural values model the strings faithfully. -/
inductive AnnText where
  | ganOnly (g : Stem)
  | jiXing (g : Stem)
  | ruMuT (g : Stem)
  | riKongT
  | shiKongT
  | shuangKongT (z : Branch)
  | yueLingT
  | maXingT
  | shuangT (t : AnnText)
  deriving DecidableEq, Repr

/-- One structured annotation record `{"type": ..., "text": ..., "strike": ...}`. -/
structure Annotation where
  atype : AnnType
  text : AnnText
  strike : Bool
  deriving DecidableEq, Repr

/-- An emission: a record destined for one branch's annotation list. -/
abbrev Emission := Branch × Annotation

/-- Append one record at one branch of the per-branch annotation map
(`annotations[target_zhi].append({...})`). -/
def appendAnn (annos : Branch → List Annotation) (b : Branch) (a : Annotation) :
    Branch → List Annotation :=
  fun z => if z = b then annos z ++ [a] else annos z

/-- Apply a list of emissions in order. -/
def applyEmissions (annos : Branch → List Annotation) (es : List Emission) :
    Branch → List Annotation :=
  es.foldl (fun acc e => appendAnn acc e.1 e.2) annos

/-- The six 击刑 rules of `_analyze_liu_ji_structured` (lines 303-310), in
the source dict's insertion order: stem, palace, target branch. -/
def liuJiRules : List (Stem × Nat × Branch) :=
  [(.wuS, 3, .mao), (.jiS, 2, .wei), (.geng, 8, .yinB),
   (.xinS, 9, .wuB), (.ren, 4, .chen), (.gui, 4, .siB)]

/-- `_analyze_liu_ji_structured` (lines 297-322): for each rule, if the stem
occurs in the palace's combined heaven+earth stems, emit one clash record at
the target branch. -/
def liuJiEmissions (diPan tianPan : List (List Stem)) : List Emission :=
  liuJiRules.flatMap (fun r =>
    if r.1 ∈ getL tianPan r.2.1 ++ getL diPan r.2.1 then
      [(r.2.2, ⟨.liuji, .jiXing r.1, false⟩)]
    else [])

/-- The four 入墓 rules of `_analyze_ru_mu_structured` (lines 330-335), in
the source dict's insertion order: palace, stem set, target branch. -/
def ruMuRules : List (Nat × List Stem × Branch) :=
  [(8, [.ding, .jiS, .geng], .chou), (4, [.xinS, .ren], .chen),
   (2, [.yiS, .gui], .wei), (6, [.bing, .wuS], .xu)]

/-- `_analyze_ru_mu_structured` (lines 324-348): for each rule, every
occurrence of a matching stem in the palace's combined heaven+earth stems
emits one tomb record at the target branch. -/
def ruMuEmissions (diPan tianPan : List (List Stem)) : List Emission :=
  ruMuRules.flatMap (fun r =>
    (getL tianPan r.1 ++ getL diPan r.1).flatMap (fun g =>
      if g ∈ r.2.1 then [(r.2.2, ⟨.rumu, .ruMuT g, false⟩)] else []))

/-- `_analyze_kong_wang_structured` (lines 350-374): one record per day-void
branch, then one per hour-void branch, struck iff the branch equals the
month branch. -/
def kongWangEmissions (kongWang : List Branch × List Branch) (yueZhi : Branch) :
    List Emission :=
  kongWang.1.map (fun kz => (kz, ⟨.rikong, .riKongT, kz = yueZhi⟩)) ++
  kongWang.2.map (fun kz => (kz, ⟨.shikong, .shiKongT, kz = yueZhi⟩))

/-- `_analyze_yue_wang_ma_xing_structured` (lines 376-395): one 月令 record
at the month branch, and one 马星 record at the horse branch when present. -/
def yueMaEmissions (yueZhi : Branch) (maXing : Option Branch) : List Emission :=
  [(yueZhi, ⟨.yueling, .yueLingT, false⟩)] ++
  (match maXing with
   | some m => [(m, ⟨.maxing, .maXingT, false⟩)]
   | none => [])

/-- Python `type_count` of `_process_double_annotations_structured`:
occurrences of a type in the branch's list. -/
def typeCount (l : List Annotation) (t : AnnType) : Nat :=
  (l.filter (fun a => a.atype = t)).length

/-- Models `text.replace("入墓", "")` on the structured texts. -/
def stripRuMu : AnnText → AnnText
  | .ruMuT g => .ganOnly g
  | .shuangT t => .shuangT (stripRuMu t)
  | t => t

/-- Models `f"{gan}入墓"` applied to a stripped key. -/
def addRuMu : AnnText → AnnText
  | .ganOnly g => .ruMuT g
  | .shuangT t => .shuangT (addRuMu t)
  | t => t

/-- The keys of Python's insertion-ordered `gan_count` dict: first
occurrence order, no duplicates. -/
def insertKey (ks : List AnnText) (k : AnnText) : List AnnText :=
  if k ∈ ks then ks else ks ++ [k]

/-- All stripped-stem keys of the tomb records, in first-occurrence order. -/
def ganKeys (ts : List AnnText) : List AnnText := ts.foldl insertKey []

/-- Intermediate state of the rebuild loop in
`_process_double_annotations_structured`: the `new_annotations` list and the
`processed_kong` / `processed_rumu` flags. -/
structure MergeState where
  acc : List Annotation
  pk : Bool
  pr : Bool
  deriving DecidableEq, Repr

/-- One iteration of the rebuild loop of
`_process_double_annotations_structured` (lines 422-480), with `full` the
branch's original `annotation_list` and `zhi` the branch. -/
def mergeStep (full : List Annotation) (zhi : Branch) (st : MergeState)
    (a : Annotation) : MergeState :=
  if (a.atype = .rikong ∨ a.atype = .shikong) ∧ st.pk = false then
    if (full.any (fun x => x.atype = .rikong)) ∧
        (full.any (fun x => x.atype = .shikong)) then
      let hasStrike := full.any (fun x =>
        (x.atype = .rikong ∨ x.atype = .shikong) ∧ x.strike)
      ⟨st.acc ++ [⟨.shuangkong, .shuangKongT zhi, hasStrike⟩], true, st.pr⟩
    else ⟨st.acc ++ [a], st.pk, st.pr⟩
  else if a.atype = .rumu ∧ 2 ≤ typeCount full .rumu ∧ st.pr = false then
    let rumuAnns := full.filter (fun x => x.atype = .rumu)
    let keys := ganKeys (rumuAnns.map (fun x => stripRuMu x.text))
    let newRumus := keys.map (fun k =>
      let count := (rumuAnns.filter (fun x => stripRuMu x.text = k)).length
      let text := if 2 ≤ count then AnnText.shuangT (addRuMu k) else addRuMu k
      let hasStrike := rumuAnns.any (fun x => x.text = addRuMu k ∧ x.strike)
      (⟨.rumu, text, hasStrike⟩ : Annotation))
    ⟨st.acc ++ newRumus, st.pk, true⟩
  else if 2 ≤ typeCount full a.atype ∧ a.atype ≠ .rumu then
    if full.find? (fun x => x.atype = a.atype) = some a then
      ⟨st.acc ++ [⟨a.atype, .shuangT a.text, a.strike⟩], st.pk, st.pr⟩
    else st
  else if (a.atype ≠ .rikong ∧ a.atype ≠ .shikong ∧ a.atype ≠ .rumu) ∨
      (st.pk = false ∧ st.pr = false) then
    ⟨st.acc ++ [a], st.pk, st.pr⟩
  else st

/-- Per-branch body of `_process_double_annotations_structured`
(lines 397-482): lists of length ≤ 1 are untouched, otherwise the rebuild
loop runs over the original list. -/
def mergeBranch (zhi : Branch) (l : List Annotation) : List Annotation :=
  if l.length ≤ 1 then l
  else (l.foldl (mergeStep l zhi) ⟨[], false, false⟩).acc

/-- `_calculate_annotations` (lines 277-295): run the four analyzers in
order over the initially-empty per-branch map, then the merge pass on every
branch. -/
def calculate_annotations (diPan tianPan : List (List Stem))
    (kongWang : List Branch × List Branch) (yueZhi : Branch)
    (maXing : Option Branch) : Branch → List Annotation :=
  let pre := applyEmissions (fun _ => [])
    (liuJiEmissions diPan tianPan ++ ruMuEmissions diPan tianPan ++
     kongWangEmissions kongWang yueZhi ++ yueMaEmissions yueZhi maXing)
  fun b => mergeBranch b (pre b)

/-- A chongdong target `{"type": ..., "location_zhi": ..., "text": ...}`. -/
structure Target where
  ttype : AnnType
  location_zhi : Branch
  text : AnnText
  deriving DecidableEq, Repr

/-- The opposite-palace map of `_analyze_maxing_chongdong` (line 497). -/
def dui_gong_map (g : Nat) : Option Nat :=
  match g with
  | 1 => some 9 | 9 => some 1 | 2 => some 8 | 8 => some 2
  | 3 => some 7 | 7 => some 3 | 4 => some 6 | 6 => some 4
  | _ => none

/-- The branch → palace map of `_analyze_maxing_chongdong` (lines 498-501). -/
def zhi_to_gong_map (b : Branch) : Nat :=
  match b with
  | .zi => 1 | .chou => 8 | .yinB => 8 | .mao => 3 | .chen => 4 | .siB => 4
  | .wuB => 9 | .wei => 2 | .shen => 2 | .you => 7 | .xu => 6 | .hai => 6

/-- The palace → branch-list map of `_analyze_maxing_chongdong`
(lines 502-505). -/
def gong_to_zhi_list_map (g : Nat) : List Branch :=
  match g with
  | 1 => [.zi] | 2 => [.wei, .shen] | 3 => [.mao] | 4 => [.chen, .siB]
  | 5 => [] | 6 => [.xu, .hai] | 7 => [.you] | 8 => [.chou, .yinB]
  | 9 => [.wuB] | _ => []

/-- `_find_targets_in_gong` (lines 537-574): all records of a matching type
at any branch of the palace, in branch order then record order. -/
def find_targets_in_gong (gong : Nat) (targetTypes : List AnnType)
    (annos : Branch → List Annotation) : List Target :=
  (gong_to_zhi_list_map gong).flatMap (fun zhi =>
    (annos zhi).filterMap (fun a =>
      if a.atype ∈ targetTypes then some ⟨a.atype, zhi, a.text⟩ else none))

/-- `_analyze_maxing_chongdong` (lines 484-535): the four-tier
own-tomb / opposite-tomb / own-void / opposite-void search, returning the
first non-empty tier's targets. -/
def analyze_maxing_chongdong (maXing : Option Branch)
    (annos : Branch → List Annotation) : List Target :=
  match maXing with
  | none => []
  | some m =>
    let ben := zhi_to_gong_map m
    let dui := dui_gong_map ben
    let t1 := find_targets_in_gong ben [.rumu] annos
    if t1 ≠ [] then t1
    else
      let t2 := match dui with
        | some d => find_targets_in_gong d [.rumu] annos
        | none => []
      if t2 ≠ [] then t2
      else
        let t3 := find_targets_in_gong ben [.rikong, .shikong] annos
        if t3 ≠ [] then t3
        else
          match dui with
          | some d => find_targets_in_gong d [.rikong, .shikong] annos
          | none => []

/-- The four pillars returned by the external calendar resolver
(`get_si_zhu`): year, month, day, hour, each a stem+branch pair. -/
structure SiZhu where
  nian : Stem × Branch
  yue : Stem × Branch
  ri : Stem × Branch
  shi : Stem × Branch
  deriving DecidableEq, Repr

/-- The five-element palace colors of `_internal_paipan` (line 79). -/
inductive Wuxing where
  | shui | tu | muW | jin | huo
  deriving DecidableEq, Repr

/-- `palace_wuxing = {1:水, 2:土, 3:木, 4:木, 6:金, 7:金, 8:土, 9:火, 5:土}`
(line 79). -/
def palace_wuxing (i : Nat) : Option Wuxing :=
  match i with
  | 1 => some .shui | 2 => some .tu | 3 => some .muW | 4 => some .muW
  | 6 => some .jin | 7 => some .jin | 8 => some .tu | 9 => some .huo
  | 5 => some .tu | _ => none

/-- One palace of the nine-palace grid (`models.py` lines 3-24).  The engine
(`_internal_paipan` lines 83-92) populates only the legacy attribute names;
the expert-model attributes `zhi_fu`, `tian_pan_stars`, `tian_pan_gates`,
`tian_pan_stems`, `di_pan_stems`, `di_pan_star` and `di_pan_gate` keep the
empty defaults `Palace.__init__` gives them.  `none` models the empty
string. -/
structure Palace where
  god : Option GodName := none
  stars : List StarName := []
  gates : Option GateName := none
  heaven_stems : List Stem := []
  earth_stems : List Stem := []
  original_star : Option StarName := none
  original_gate : Option GateName := none
  wuxing_color : Option Wuxing := none
  zhi_fu : Option GodName := none
  tian_pan_stars : List StarName := []
  tian_pan_gates : List GateName := []
  tian_pan_stems : List Stem := []
  di_pan_stems : List Stem := []
  di_pan_star : Option StarName := none
  di_pan_gate : Option GateName := none
  deriving DecidableEq, Repr

instance : Inhabited Palace := ⟨{}⟩

/-- The attribute names `_build_index` records (`models.py` lines 60-100). -/
inductive AttrName where
  | zhi_fu | tian_pan_stars | tian_pan_gates | tian_pan_stems
  | di_pan_stems | di_pan_star | di_pan_gate
  deriving DecidableEq, Repr

/-- The `param_type` categories of `_build_index`. -/
inductive ParamType where
  | baShenT | jiuXingT | baMenT | tianGan
  deriving DecidableEq, Repr

/-- A `param_name`/`text` value of the reverse index. -/
inductive ParamVal where
  | godV (g : GodName)
  | starV (s : StarName)
  | gateV (g : GateName)
  | stemV (s : Stem)
  deriving DecidableEq, Repr

/-- One location object of the reverse index (`_add_to_index`,
`models.py` lines 102-127).  The synthesized string id
`palace_{i}_{attr}` / `palace_{i}_{attr}_{sub}` encodes exactly the triple
(palace index, attribute name, optional sub-index), injectively over the
attribute names above, so the triple is carried structurally. -/
structure Location where
  palace_index : Nat
  param_type : ParamType
  attribute_name : AttrName
  text : ParamVal
  sub_index : Option Nat
  deriving DecidableEq, Repr

/-- The synthesized unique id of a location (the content of the Python id
string). -/
def Location.uid (l : Location) : Nat × AttrName × Option Nat :=
  (l.palace_index, l.attribute_name, l.sub_index)

/-- The complete chart result (`models.py` lines 38-58).  `index` is the
reverse-lookup index field, initialized empty by `ChartResult.__init__`. -/
structure ChartResult where
  si_zhu : SiZhu
  jieqi : JieQi
  ju_shu_info : JuShuInfo
  shi_chen_xun : Xun
  zhi_fu : StarName
  zhi_shi : GateName
  ma_xing : Option Branch
  kong_wang : List Branch × List Branch
  palaces : List Palace
  side_annotations : Branch → List Annotation
  maxing_chongdong_targets : List Target
  index : List Location

/-- The palace-fill loop of `_internal_paipan` (lines 83-92). -/
def fillPalace (diPan tianStems : List (List Stem))
    (tianStars : List (List StarName)) (baShenL : List (Option GodName))
    (baMenL : List (Option GateName)) (i : Nat) : Palace :=
  { earth_stems := getL diPan i
    heaven_stems := getL tianStems i
    stars := getL tianStars i
    gates := baMenL.getD i none
    god := baShenL.getD i none
    wuxing_color := palace_wuxing i
    original_star := some (((jiuXing.find? (fun s => s.guxiang = i)).map (·.cn)).getD .qin)
    original_gate := (baMen.find? (fun g => g.guxiang = i)).map (·.cn) }

/-- `_internal_paipan` (lines 37-100), downstream of the external calendar
resolver: the four pillars and the solar term are its inputs, and any
internal lookup failure (a `raise` in the source) yields `none`.  The
`index` field receives the empty value `ChartResult.__init__` gave it —
no step of the pipeline calls `_build_index`. -/
def internal_paipan (siZhu : SiZhu) (jieqi : JieQi) : Option ChartResult :=
  (find_yuan siZhu.ri.1 siZhu.ri.2).bind (fun yuan =>
    let juShu := find_ju_shu jieqi yuan
    let diPan := layout_di_pan juShu
    (find_shi_chen_xun siZhu.shi.1 siZhu.shi.2).bind (fun xun =>
      (find_zhi_fu_zhi_shi xun diPan).bind (fun zfs =>
        (layout_ba_shen siZhu.shi.1 diPan juShu xun).bind (fun baShenL =>
          (layout_tian_pan_and_stars siZhu.shi.1 diPan zfs.1 xun).bind (fun tp =>
            (layout_ba_men siZhu.shi.2 xun.zhi zfs.2.1 juShu).bind (fun baMenL =>
              (find_kong_wang siZhu.ri siZhu.shi).map (fun kw =>
                let maXing := find_ma_xing siZhu.shi.2
                let sideAnn :=
                  calculate_annotations diPan tp.1 kw siZhu.yue.2 maXing
                { si_zhu := siZhu
                  jieqi := jieqi
                  ju_shu_info := juShu
                  shi_chen_xun := xun
                  zhi_fu := zfs.1.cn
                  zhi_shi := zfs.2.1
                  ma_xing := maXing
                  kong_wang := kw
                  palaces := (List.range 10).map (fun i =>
                    if i = 0 then {} else
                      fillPalace diPan tp.1 tp.2 baShenL baMenL i)
                  side_annotations := sideAnn
                  maxing_chongdong_targets :=
                    analyze_maxing_chongdong maXing sideAnn
                  index := [] })))))))

/-- The location objects `_build_index` (`models.py` lines 60-100) records
for palace `i`, in emission order.  Scalar fields are recorded when
non-empty; elements of list fields are all non-empty names here, so every
element is recorded with its position as sub-index (`enumerate`). -/
def palaceLocations (p : Palace) (i : Nat) : List Location :=
  (match p.zhi_fu with
   | some g => [⟨i, .baShenT, .zhi_fu, .godV g, none⟩]
   | none => []) ++
  (p.tian_pan_stars.enum.map (fun e =>
    ⟨i, .jiuXingT, .tian_pan_stars, .starV e.2, some e.1⟩)) ++
  (p.tian_pan_gates.enum.map (fun e =>
    ⟨i, .baMenT, .tian_pan_gates, .gateV e.2, some e.1⟩)) ++
  (p.tian_pan_stems.enum.map (fun e =>
    ⟨i, .tianGan, .tian_pan_stems, .stemV e.2, some e.1⟩)) ++
  (p.di_pan_stems.enum.map (fun e =>
    ⟨i, .tianGan, .di_pan_stems, .stemV e.2, some e.1⟩)) ++
  (match p.di_pan_star with
   | some s => [⟨i, .jiuXingT, .di_pan_star, .starV s, none⟩]
   | none => []) ++
  (match p.di_pan_gate with
   | some g => [⟨i, .baMenT, .di_pan_gate, .gateV g, none⟩]
   | none => [])

/-- `_build_index` (`models.py` lines 60-100), flattened: the location
objects in insertion order over palaces 1..9.  The nested
`index[param_type][param_name]` dict groups this flat list by
`(param_type, text)` preserving order, so the flat list carries the same
information. -/
def build_index_flat (r : ChartResult) : List Location :=
  (List.range' 1 9).flatMap (fun i => palaceLocations (r.palaces.getD i default) i)

/-- The grouped view `index[param_type][param_name]` of the built index. -/
def build_index_group (r : ChartResult) (pt : ParamType) (name : ParamVal) :
    List Location :=
  (build_index_flat r).filter (fun l => l.param_type = pt ∧ l.text = name)

/-- The error raised by `paipan` on a malformed timestamp string. -/
inductive PaipanError where
  | formatError
  deriving DecidableEq, Repr

/-- The input guard of `paipan` (paipan_engine.py lines 26-35):
`if len(time_str) != 14 or not time_str.isdigit(): raise ValueError(...)`.
`ok` means the guard passed and the string moves on to the calendar
conversion.  The per-character digit classifier of Python `str.isdigit`
belongs to the Python runtime, not to this repository (it accepts the
ASCII digits 0-9 and further Unicode digit characters), so the guard is
modelled relative to an arbitrary classifier `isDigitC`; a "non-digit
character" is a character the program's classifier rejects. -/
def paipan_check (isDigitC : Char → Bool) (timeStr : String) :
    Except PaipanError Unit :=
  if timeStr.length ≠ 14 ∨ ¬ (timeStr.data.all isDigitC) then
    .error .formatError
  else .ok ()

/-- C9: for every digit classifier (in particular the Python runtime's
`str.isdigit` one), every input string whose length is not 14 or which
contains a character the classifier rejects — a non-digit character — is
rejected by the cast operation's input guard with a format error
(`ValueError`), before any chart computation. -/
theorem chart_c9_input_guard (isDigitC : Char → Bool) (s : String)
    (h : s.length ≠ 14 ∨ ∃ c ∈ s.data, isDigitC c = false) :
    paipan_check isDigitC s = .error .formatError := by
  unfold paipan_check
  rw [if_pos]
  rcases h with h | ⟨c, hc, hd⟩
  · exact Or.inl h
  · refine Or.inr ?_
    simp only [List.all_eq_true]
    intro hall
    rw [hall c hc] at hd
    exact absurd hd (by simp)

/-- Witness for C9, with the ASCII fragment of the runtime classifier: the
3-character string "123" (wrong length) and the 14-character string
"1234567890123x" (a rejected character). -/
theorem chart_c9_input_guard_witness :
    (("123".length ≠ 14 ∨ ∃ c ∈ "123".data, Char.isDigit c = false) ∧
     paipan_check Char.isDigit "123" = .error .formatError) ∧
    (("1234567890123x".length ≠ 14 ∨
       ∃ c ∈ "1234567890123x".data, Char.isDigit c = false) ∧
     paipan_check Char.isDigit "1234567890123x" = .error .formatError) :=
  ⟨⟨Or.inl (by decide),
    chart_c9_input_guard Char.isDigit "123" (Or.inl (by decide))⟩,
   ⟨Or.inr (by decide),
    chart_c9_input_guard Char.isDigit "1234567890123x" (Or.inr (by decide))⟩⟩

/-- Membership characterization of `_find_targets_in_gong`: a target is
returned exactly when some branch of the palace carries a record of one of
the requested types, and the target copies that record's type, branch and
text. -/
theorem mem_find_targets_in_gong (g : Nat) (tys : List AnnType)
    (annos : Branch → List Annotation) (t : Target) :
    t ∈ find_targets_in_gong g tys annos ↔
      ∃ z ∈ gong_to_zhi_list_map g, ∃ a ∈ annos z,
        a.atype ∈ tys ∧ t = ⟨a.atype, z, a.text⟩ := by
  unfold find_targets_in_gong
  rw [List.mem_flatMap]
  constructor
  · rintro ⟨z, hz, ht⟩
    rw [List.mem_filterMap] at ht
    obtain ⟨a, ha, hfa⟩ := ht
    by_cases hm : a.atype ∈ tys
    · rw [if_pos hm] at hfa
      exact ⟨z, hz, a, ha, hm, (Option.some_inj.mp hfa).symm⟩
    · rw [if_neg hm] at hfa
      exact absurd hfa (Option.noConfusion)
  · rintro ⟨z, hz, a, ha, hm, rfl⟩
    refine ⟨z, hz, ?_⟩
    rw [List.mem_filterMap]
    exact ⟨a, ha, by rw [if_pos hm]⟩

/-- C1: whenever the horse branch's own palace carries at least one tomb
(rumu) record, the chongdong analysis returns the own-palace tomb tier:
exactly the tomb records of that palace (all of them and only them), so in
particular no void records and nothing from the opposite palace. -/
theorem chart_c1_chongdong_tomb_tier (annos : Branch → List Annotation)
    (m : Branch)
    (h : ∃ z ∈ gong_to_zhi_list_map (zhi_to_gong_map m), ∃ a ∈ annos z,
      a.atype = AnnType.rumu) :
    analyze_maxing_chongdong (some m) annos =
      find_targets_in_gong (zhi_to_gong_map m) [.rumu] annos ∧
    ∀ t, t ∈ analyze_maxing_chongdong (some m) annos ↔
      ∃ z ∈ gong_to_zhi_list_map (zhi_to_gong_map m), ∃ a ∈ annos z,
        a.atype = AnnType.rumu ∧ t = ⟨AnnType.rumu, z, a.text⟩ := by
  have ht1 : find_targets_in_gong (zhi_to_gong_map m) [.rumu] annos ≠ [] := by
    obtain ⟨z, hz, a, ha, hty⟩ := h
    intro hnil
    have : (⟨a.atype, z, a.text⟩ : Target) ∈
        find_targets_in_gong (zhi_to_gong_map m) [.rumu] annos := by
      rw [mem_find_targets_in_gong]
      exact ⟨z, hz, a, ha, by simp [hty], rfl⟩
    rw [hnil] at this
    exact absurd this (List.not_mem_nil _)
  have heq : analyze_maxing_chongdong (some m) annos =
      find_targets_in_gong (zhi_to_gong_map m) [.rumu] annos := by
    simp only [analyze_maxing_chongdong]
    rw [if_pos ht1]
  refine ⟨heq, fun t => ?_⟩
  rw [heq, mem_find_targets_in_gong]
  constructor
  · rintro ⟨z, hz, a, ha, hm, rfl⟩
    simp only [List.mem_singleton] at hm
    exact ⟨z, hz, a, ha, hm, by rw [hm]⟩
  · rintro ⟨z, hz, a, ha, hm, rfl⟩
    exact ⟨z, hz, a, ha, by simp [hm], by rw [hm]⟩

/-- Witness for C1: a map with one tomb record at branch 丑 and the horse at
寅 (both palace 8). -/
theorem chart_c1_chongdong_tomb_tier_witness :
    (∃ z ∈ gong_to_zhi_list_map (zhi_to_gong_map Branch.yinB),
      ∃ a ∈ (fun z => if z = Branch.chou then
          [(⟨.rumu, .ruMuT .ding, false⟩ : Annotation)] else []) z,
        a.atype = AnnType.rumu) ∧
    (analyze_maxing_chongdong (some Branch.yinB)
        (fun z => if z = Branch.chou then
          [(⟨.rumu, .ruMuT .ding, false⟩ : Annotation)] else []) =
      find_targets_in_gong (zhi_to_gong_map Branch.yinB) [.rumu]
        (fun z => if z = Branch.chou then
          [(⟨.rumu, .ruMuT .ding, false⟩ : Annotation)] else []) ∧
    ∀ t, t ∈ analyze_maxing_chongdong (some Branch.yinB)
        (fun z => if z = Branch.chou then
          [(⟨.rumu, .ruMuT .ding, false⟩ : Annotation)] else []) ↔
      ∃ z ∈ gong_to_zhi_list_map (zhi_to_gong_map Branch.yinB),
        ∃ a ∈ (fun z => if z = Branch.chou then
            [(⟨.rumu, .ruMuT .ding, false⟩ : Annotation)] else []) z,
          a.atype = AnnType.rumu ∧ t = ⟨AnnType.rumu, z, a.text⟩) :=
  ⟨by decide,
   chart_c1_chongdong_tomb_tier
     (fun z => if z = Branch.chou then
       [(⟨.rumu, .ruMuT .ding, false⟩ : Annotation)] else [])
     Branch.yinB (by decide)⟩

/-- A concrete cast input: pillars 乙巳 丙子 甲午 己亥 (a calendar moment in
the 甲午 decade for both day and hour, so day-void and hour-void coincide at
辰 and 巳), solar term 小寒.  Under 阳遁2局 the horse branch is 巳 (palace 4,
opposite 6) and neither palace holds a tomb record. -/
def sampleSiZhu : SiZhu := ⟨(.yiS, .siB), (.bing, .zi), (.jia, .wuB), (.jiS, .hai)⟩

/-- Counterexample to C4: in the cast of `sampleSiZhu` at 小寒 the horse
branch's own palace 4 and its opposite 6 hold no tomb record, the own palace
holds a void-derived record (the merged double-void at 辰), yet the
chongdong search returns the empty list: the claim "the search returns all
void records from the own palace, including one collapsed into a
double-void record" fails, because `_find_targets_in_gong` matches only the
types `rikong`/`shikong` and the merged record has type `shuangkong`. -/
theorem chart_c4_counterexample :
    (internal_paipan sampleSiZhu .xiaohan).map (fun r => r.ma_xing) =
      some (some .siB) ∧
    (internal_paipan sampleSiZhu .xiaohan).map
      (fun r => find_targets_in_gong 4 [.rumu] r.side_annotations) = some [] ∧
    (internal_paipan sampleSiZhu .xiaohan).map
      (fun r => find_targets_in_gong 6 [.rumu] r.side_annotations) = some [] ∧
    (internal_paipan sampleSiZhu .xiaohan).map
      (fun r => r.side_annotations .chen) =
      some [⟨.shuangkong, .shuangKongT .chen, false⟩] ∧
    (internal_paipan sampleSiZhu .xiaohan).map
      (fun r => r.maxing_chongdong_targets) = some [] := by
  refine ⟨?_, ?_, ?_, ?_, ?_⟩ <;> decide

/-- C4 as amended: when neither the horse branch's palace nor its opposite
palace holds any tomb record, the chongdong search returns all records of
the unmerged void types (day-void / hour-void) from the own palace if there
are any, otherwise those of the opposite palace, otherwise the empty list;
a record collapsed into a double-void by the merge pass is never returned,
since the search matches the types `rikong`/`shikong` only. -/
theorem chart_c4_void_tiers (annos : Branch → List Annotation) (m : Branch)
    (d : Nat) (hd : dui_gong_map (zhi_to_gong_map m) = some d)
    (h1 : find_targets_in_gong (zhi_to_gong_map m) [.rumu] annos = [])
    (h2 : find_targets_in_gong d [.rumu] annos = []) :
    analyze_maxing_chongdong (some m) annos =
      (if find_targets_in_gong (zhi_to_gong_map m) [.rikong, .shikong] annos ≠ []
       then find_targets_in_gong (zhi_to_gong_map m) [.rikong, .shikong] annos
       else find_targets_in_gong d [.rikong, .shikong] annos) ∧
    ∀ t ∈ analyze_maxing_chongdong (some m) annos,
      t.ttype = AnnType.rikong ∨ t.ttype = AnnType.shikong := by
  have heq : analyze_maxing_chongdong (some m) annos =
      (if find_targets_in_gong (zhi_to_gong_map m) [.rikong, .shikong] annos ≠ []
       then find_targets_in_gong (zhi_to_gong_map m) [.rikong, .shikong] annos
       else find_targets_in_gong d [.rikong, .shikong] annos) := by
    simp only [analyze_maxing_chongdong, hd, h1, h2]
    simp
  refine ⟨heq, fun t ht => ?_⟩
  rw [heq] at ht
  by_cases hc :
      find_targets_in_gong (zhi_to_gong_map m) [.rikong, .shikong] annos ≠ []
  · rw [if_pos hc] at ht
    rw [mem_find_targets_in_gong] at ht
    obtain ⟨z, _, a, _, hmem, rfl⟩ := ht
    simpa using hmem
  · rw [if_neg hc] at ht
    rw [mem_find_targets_in_gong] at ht
    obtain ⟨z, _, a, _, hmem, rfl⟩ := ht
    simpa using hmem

/-- Witness for the amended C4: one day-void record at 辰, horse at 巳. -/
theorem chart_c4_void_tiers_witness :
    (dui_gong_map (zhi_to_gong_map Branch.siB) = some 6 ∧
     find_targets_in_gong (zhi_to_gong_map Branch.siB) [.rumu]
       (fun z => if z = Branch.chen then
         [(⟨.rikong, .riKongT, false⟩ : Annotation)] else []) = [] ∧
     find_targets_in_gong 6 [.rumu]
       (fun z => if z = Branch.chen then
         [(⟨.rikong, .riKongT, false⟩ : Annotation)] else []) = []) ∧
    (analyze_maxing_chongdong (some Branch.siB)
        (fun z => if z = Branch.chen then
          [(⟨.rikong, .riKongT, false⟩ : Annotation)] else []) =
      (if find_targets_in_gong (zhi_to_gong_map Branch.siB) [.rikong, .shikong]
          (fun z => if z = Branch.chen then
            [(⟨.rikong, .riKongT, false⟩ : Annotation)] else []) ≠ []
       then find_targets_in_gong (zhi_to_gong_map Branch.siB) [.rikong, .shikong]
          (fun z => if z = Branch.chen then
            [(⟨.rikong, .riKongT, false⟩ : Annotation)] else [])
       else find_targets_in_gong 6 [.rikong, .shikong]
          (fun z => if z = Branch.chen then
            [(⟨.rikong, .riKongT, false⟩ : Annotation)] else [])) ∧
    ∀ t ∈ analyze_maxing_chongdong (some Branch.siB)
        (fun z => if z = Branch.chen then
          [(⟨.rikong, .riKongT, false⟩ : Annotation)] else []),
      t.ttype = AnnType.rikong ∨ t.ttype = AnnType.shikong) :=
  ⟨⟨by decide, by decide, by decide⟩,
   chart_c4_void_tiers
     (fun z => if z = Branch.chen then
       [(⟨.rikong, .riKongT, false⟩ : Annotation)] else [])
     Branch.siB 6 (by decide) (by decide) (by decide)⟩

/-- The palace scan returns -1 or a palace index drawn from the scanned
range 1..9. -/
theorem scanStemPalace_cases (t : Stem) (diPan : List (List Stem)) :
    scanStemPalace t diPan = -1 ∨
      (scanStemPalace t diPan).toNat ∈ List.range' 1 9 := by
  unfold scanStemPalace
  generalize hf : (List.range' 1 9).find? (fun i => decide (t ∈ getL diPan i)) = o
  cases o with
  | none => exact Or.inl rfl
  | some i =>
    have hm := List.mem_of_find?_eq_some hf
    exact Or.inr (by simpa using hm)

/-- On every reachable earth plate (pattern number 1..9) a found stem palace
lies on the flying path — never palace 5, thanks to the palace-5 → palace-2
mirror copy and the 1-to-9 scan order. -/
theorem scan_on_path (d : Dun) (j : Nat) (hj : j < 10) (hj1 : 1 ≤ j) (t : Stem) :
    scanStemPalace t (layout_di_pan ⟨d, j⟩) = -1 ∨
      (scanStemPalace t (layout_di_pan ⟨d, j⟩)).toNat ∈ LUO_SHU_PATH := by
  revert t
  revert hj1
  revert hj
  revert j
  revert d
  decide

/-- The shifted eight-gate anchor always lands on the flying path. -/
theorem zhiShiLuoGong_on_path (b1 b2 : Branch) (g : GateName) (d : Dun) :
    zhiShiLuoGong b1 b2 g d ∈ LUO_SHU_PATH := by
  revert d; revert g; revert b2; revert b1
  decide

/-- Properties of the god rotation from any anchor below 10: on success,
the eight path palaces hold the eight gods exactly once each, and palaces 5
and 0 are untouched. -/
theorem baShenRotation_props (dun : Dun) (anchor : Nat) (ha : anchor < 10)
    (l : List (Option GodName)) (h : baShenRotation dun anchor = some l) :
    (LUO_SHU_PATH.map (fun p => l.getD p none)).Perm (gods_order.map some) ∧
    l.getD 5 none = none ∧ l.getD 0 none = none := by
  have key : ∀ (d : Dun) (a : Nat), a < 10 →
      (baShenRotation d a).all (fun l2 => decide
        ((LUO_SHU_PATH.map (fun p => l2.getD p none)).Perm (gods_order.map some) ∧
        l2.getD 5 none = none ∧ l2.getD 0 none = none)) = true := by decide
  have hk := key dun anchor ha
  rw [h] at hk
  simp only [Option.all_some, decide_eq_true_eq] at hk
  exact hk

/-- On success the eight-god layout assigns each of the eight gods to
exactly one path palace and leaves palaces 5 and 0 empty. -/
theorem layout_ba_shen_props (shiGan : Stem) (diPan : List (List Stem))
    (info : JuShuInfo) (x : Xun) (l : List (Option GodName))
    (h : layout_ba_shen shiGan diPan info x = some l) :
    (LUO_SHU_PATH.map (fun p => l.getD p none)).Perm (gods_order.map some) ∧
    l.getD 5 none = none ∧ l.getD 0 none = none := by
  unfold layout_ba_shen at h
  by_cases hp : find_stem_palace shiGan diPan x = -1
  · rw [if_pos hp] at h
    exact absurd h (by simp)
  · rw [if_neg hp] at h
    rcases scanStemPalace_cases (resolveStem shiGan x) diPan with hs | hs
    · exact absurd hs hp
    · have hb : (find_stem_palace shiGan diPan x).toNat < 10 := by
        have := hs
        rw [List.mem_range'] at this
        obtain ⟨i, hi, hieq⟩ := this
        unfold find_stem_palace
        omega
      exact baShenRotation_props info.dun _ hb l h

/-- On success the eight-gate layout assigns each of the eight gates to
exactly one path palace and leaves palaces 5 and 0 empty. -/
theorem layout_ba_men_props (b1 b2 : Branch) (g : GateName) (info : JuShuInfo)
    (l : List (Option GateName)) (h : layout_ba_men b1 b2 g info = some l) :
    (LUO_SHU_PATH.map (fun p => l.getD p none)).Perm (men_order_cn.map some) ∧
    l.getD 5 none = none ∧ l.getD 0 none = none := by
  have heq : layout_ba_men b1 b2 g info = layout_ba_men b1 b2 g ⟨info.dun, 0⟩ := rfl
  have key : ∀ (c1 c2 : Branch) (gg : GateName) (d : Dun),
      (layout_ba_men c1 c2 gg ⟨d, 0⟩).all (fun l2 => decide
        ((LUO_SHU_PATH.map (fun p => l2.getD p none)).Perm (men_order_cn.map some) ∧
        l2.getD 5 none = none ∧ l2.getD 0 none = none)) = true := by decide
  have hk := key b1 b2 g info.dun
  rw [heq] at h
  rw [h] at hk
  simp only [Option.all_some, decide_eq_true_eq] at hk
  exact hk

/-- Reading any other slot is unaffected by `List.set`. -/
theorem getL_set_ne {α : Type} (l : List (List α)) (i j : Nat) (a : List α)
    (h : i ≠ j) : getL (l.set i a) j = getL l j := by
  unfold getL
  rw [List.getD_eq_getElem?_getD, List.getD_eq_getElem?_getD,
    List.getElem?_set_ne h]

/-- Every palace reached through the flying path differs from 5. -/
theorem path_mod_ne_five (n : Nat) : LUO_SHU_PATH.getD (n % 8) 0 ≠ 5 := by
  have h : n % 8 < 8 := Nat.mod_lt _ (by omega)
  have key : ∀ m, m < 8 → LUO_SHU_PATH.getD m 0 ≠ 5 := by decide
  exact key _ h

/-- The star component of the heaven-plate walk, which does not depend on
the earth plate. -/
def starsWalkOnly (start k : Nat) : List (List StarName) :=
  (List.range 8).foldl (fun acc i =>
    let cn := stars_order_cn.getD ((start + i) % 8) .peng
    let pp := LUO_SHU_PATH.getD ((k + i) % 8) 0
    acc.set pp (getL acc pp ++ [cn]))
    (List.replicate 10 [])

/-- The star half of `tian_pan_walk` coincides with `starsWalkOnly`. -/
theorem tian_pan_walk_snd (start k : Nat) (diPan : List (List Stem)) :
    (tian_pan_walk start k diPan).2 = starsWalkOnly start k := by
  suffices h : ∀ (ns : List Nat) (acc : List (List Stem) × List (List StarName)),
      (ns.foldl (fun acc2 i =>
        let cn := stars_order_cn.getD ((start + i) % 8) .peng
        let pp := LUO_SHU_PATH.getD ((k + i) % 8) 0
        (acc2.1.set pp (getL acc2.1 pp ++ getL diPan (starGuxiang cn)),
         acc2.2.set pp (getL acc2.2 pp ++ [cn]))) acc).2 =
      ns.foldl (fun a i =>
        let cn := stars_order_cn.getD ((start + i) % 8) .peng
        let pp := LUO_SHU_PATH.getD ((k + i) % 8) 0
        a.set pp (getL a pp ++ [cn])) acc.2 by
    exact h (List.range 8) (List.replicate 10 [], List.replicate 10 [])
  intro ns
  induction ns with
  | nil => intro acc; rfl
  | cons n ns ih =>
    intro acc
    exact ih _

/-- The heaven-plate walk never writes palace 5, in either component. -/
theorem tian_pan_walk_five (start k : Nat) (diPan : List (List Stem)) :
    getL (tian_pan_walk start k diPan).1 5 = [] ∧
    getL (tian_pan_walk start k diPan).2 5 = [] := by
  suffices h : ∀ (ns : List Nat) (acc : List (List Stem) × List (List StarName)),
      getL acc.1 5 = [] → getL acc.2 5 = [] →
      getL (ns.foldl (fun acc2 i =>
        let cn := stars_order_cn.getD ((start + i) % 8) .peng
        let pp := LUO_SHU_PATH.getD ((k + i) % 8) 0
        (acc2.1.set pp (getL acc2.1 pp ++ getL diPan (starGuxiang cn)),
         acc2.2.set pp (getL acc2.2 pp ++ [cn]))) acc).1 5 = [] ∧
      getL (ns.foldl (fun acc2 i =>
        let cn := stars_order_cn.getD ((start + i) % 8) .peng
        let pp := LUO_SHU_PATH.getD ((k + i) % 8) 0
        (acc2.1.set pp (getL acc2.1 pp ++ getL diPan (starGuxiang cn)),
         acc2.2.set pp (getL acc2.2 pp ++ [cn]))) acc).2 5 = [] by
    exact h (List.range 8) (List.replicate 10 [], List.replicate 10 []) rfl rfl
  intro ns
  induction ns with
  | nil => intro acc h1 h2; exact ⟨h1, h2⟩
  | cons n ns ih =>
    intro acc h1 h2
    refine ih _ ?_ ?_
    · rw [getL_set_ne _ _ _ _ (path_mod_ne_five (k + n))]
      exact h1
    · rw [getL_set_ne _ _ _ _ (path_mod_ne_five (k + n))]
      exact h2

/-- From every reachable starting star index (any chief star, with the 禽
substitution) and path start, the heaven-plate star walk gives each path
palace exactly one star, covering all eight traveling stars. -/
theorem starsWalkOnly_perm (c : StarName) (k : Nat) (hk : k < 8) :
    (LUO_SHU_PATH.map (fun p =>
      getL (starsWalkOnly (if c ≠ .qin then starIdx c else starIdx .rui) k) p)).Perm
      (stars_order_cn.map (fun s => [s])) := by
  revert hk
  revert k
  revert c
  decide

/-- C6: each flying-path layout writes its rotation to exactly the 8
palaces of the fixed path `[1,8,3,4,9,2,7,6]`, one sequence item per path
palace (the path palaces' final values are a permutation of the full
sequence), and never writes palace 5 (or the unused slot 0); and every
reachable anchor — any found stem palace on a reachable earth plate for the
eight-god and heaven-plate walks, and the shifted chief-gate palace for the
eight-gate walk — lies on the path. -/
theorem chart_c6_path_closure :
    (∀ (dun : Dun) (ju : Nat), 1 ≤ ju → ju ≤ 9 → ∀ (s : Stem) (x : Xun),
      find_stem_palace s (layout_di_pan ⟨dun, ju⟩) x ≠ -1 →
      (find_stem_palace s (layout_di_pan ⟨dun, ju⟩) x).toNat ∈ LUO_SHU_PATH) ∧
    (∀ (b1 b2 : Branch) (g : GateName) (d : Dun),
      zhiShiLuoGong b1 b2 g d ∈ LUO_SHU_PATH) ∧
    (∀ (shiGan : Stem) (diPan : List (List Stem)) (info : JuShuInfo) (x : Xun)
      (l : List (Option GodName)), layout_ba_shen shiGan diPan info x = some l →
      (LUO_SHU_PATH.map (fun p => l.getD p none)).Perm (gods_order.map some) ∧
      l.getD 5 none = none ∧ l.getD 0 none = none) ∧
    (∀ (c : StarName) (k : Nat), k < 8 → ∀ (diPan : List (List Stem)),
      (LUO_SHU_PATH.map (fun p =>
        getL (tian_pan_walk (if c ≠ .qin then starIdx c else starIdx .rui) k diPan).2 p)).Perm
        (stars_order_cn.map (fun s => [s])) ∧
      getL (tian_pan_walk (if c ≠ .qin then starIdx c else starIdx .rui) k diPan).2 5 = [] ∧
      getL (tian_pan_walk (if c ≠ .qin then starIdx c else starIdx .rui) k diPan).1 5 = []) ∧
    (∀ (b1 b2 : Branch) (g : GateName) (info : JuShuInfo)
      (l : List (Option GateName)), layout_ba_men b1 b2 g info = some l →
      (LUO_SHU_PATH.map (fun p => l.getD p none)).Perm (men_order_cn.map some) ∧
      l.getD 5 none = none ∧ l.getD 0 none = none) := by
  refine ⟨?_, zhiShiLuoGong_on_path, layout_ba_shen_props, ?_, layout_ba_men_props⟩
  · intro dun ju h1 h2 s x hne
    have hsc := scan_on_path dun ju (by omega) h1 (resolveStem s x)
    unfold find_stem_palace at hne ⊢
    rcases hsc with h | h
    · exact absurd h hne
    · exact h
  · intro c k hk diPan
    refine ⟨?_,
      (tian_pan_walk_five (if c ≠ .qin then starIdx c else starIdx .rui) k diPan).2,
      (tian_pan_walk_five (if c ≠ .qin then starIdx c else starIdx .rui) k diPan).1⟩
    rw [tian_pan_walk_snd (if c ≠ .qin then starIdx c else starIdx .rui) k diPan]
    exact starsWalkOnly_perm c k hk

/-- Witness for C6: the hour-stem anchor of the 阳遁2局 plate for stem 己,
and the star walk anchored with chief star 芮 at path start 0. -/
theorem chart_c6_path_closure_witness :
    (1 ≤ 2 ∧ 2 ≤ 9 ∧
      find_stem_palace .jiS (layout_di_pan ⟨.yang, 2⟩) ⟨.wuB, .xinS⟩ ≠ -1 ∧
      (0 : Nat) < 8) ∧
    (find_stem_palace .jiS (layout_di_pan ⟨.yang, 2⟩) ⟨.wuB, .xinS⟩).toNat ∈
      LUO_SHU_PATH ∧
    ((LUO_SHU_PATH.map (fun p =>
      getL (tian_pan_walk (if StarName.rui ≠ .qin then starIdx .rui else starIdx .rui) 0
        (layout_di_pan ⟨.yang, 2⟩)).2 p)).Perm
      (stars_order_cn.map (fun s => [s])) ∧
     getL (tian_pan_walk (if StarName.rui ≠ .qin then starIdx .rui else starIdx .rui) 0
       (layout_di_pan ⟨.yang, 2⟩)).2 5 = [] ∧
     getL (tian_pan_walk (if StarName.rui ≠ .qin then starIdx .rui else starIdx .rui) 0
       (layout_di_pan ⟨.yang, 2⟩)).1 5 = []) :=
  ⟨⟨by decide, by decide, by decide, by decide⟩,
   chart_c6_path_closure.1 Dun.yang 2 (by decide) (by decide) .jiS ⟨.wuB, .xinS⟩
     (by decide),
   chart_c6_path_closure.2.2.2.1 .rui 0 (by decide) (layout_di_pan ⟨.yang, 2⟩)⟩

/-- Reading the slot just written by `List.set`. -/
theorem getL_set_self {α : Type} (l : List (List α)) (i : Nat) (a : List α)
    (h : i < l.length) : getL (l.set i a) i = a := by
  unfold getL
  rw [List.getD_eq_getElem?_getD, List.getElem?_set_self h]
  rfl

/-- Both components of the heaven-plate walk keep the 10-slot shape. -/
theorem tian_pan_walk_length (start k : Nat) (diPan : List (List Stem)) :
    (tian_pan_walk start k diPan).1.length = 10 ∧
    (tian_pan_walk start k diPan).2.length = 10 := by
  suffices h : ∀ (ns : List Nat) (acc : List (List Stem) × List (List StarName)),
      acc.1.length = 10 → acc.2.length = 10 →
      (ns.foldl (fun acc2 i =>
        let cn := stars_order_cn.getD ((start + i) % 8) .peng
        let pp := LUO_SHU_PATH.getD ((k + i) % 8) 0
        (acc2.1.set pp (getL acc2.1 pp ++ getL diPan (starGuxiang cn)),
         acc2.2.set pp (getL acc2.2 pp ++ [cn]))) acc).1.length = 10 ∧
      (ns.foldl (fun acc2 i =>
        let cn := stars_order_cn.getD ((start + i) % 8) .peng
        let pp := LUO_SHU_PATH.getD ((k + i) % 8) 0
        (acc2.1.set pp (getL acc2.1 pp ++ getL diPan (starGuxiang cn)),
         acc2.2.set pp (getL acc2.2 pp ++ [cn]))) acc).2.length = 10 by
    exact h (List.range 8) (List.replicate 10 [], List.replicate 10 [])
      (by simp) (by simp)
  intro ns
  induction ns with
  | nil => intro acc h1 h2; exact ⟨h1, h2⟩
  | cons n ns ih =>
    intro acc h1 h2
    refine ih _ ?_ ?_ <;> simp [List.length_set, h1, h2]

/-- If the star lists hold nothing at palace 5, the 芮 palace scan cannot
return 5. -/
theorem findRuiPalace_ne_five (stars : List (List StarName))
    (h5 : getL stars 5 = []) (hne : findRuiPalace stars ≠ -1) :
    (findRuiPalace stars).toNat ≠ 5 := by
  unfold findRuiPalace at *
  generalize hf : stars.findIdx? (fun l => decide (StarName.rui ∈ l)) = o at *
  cases o with
  | none => exact absurd rfl hne
  | some i =>
    intro htn
    have hi : i = 5 := by simpa using htn
    subst hi
    rw [List.findIdx?_eq_some_iff_getElem] at hf
    obtain ⟨hlen, hp, _⟩ := hf
    rw [decide_eq_true_eq] at hp
    have hg : stars[5] = getL stars 5 := by
      unfold getL
      rw [List.getD_eq_getElem?_getD, List.getElem?_eq_getElem hlen]
      rfl
    rw [hg, h5] at hp
    exact absurd hp (List.not_mem_nil _)

/-- On success, palace 5 of the heaven-plate rotation holds exactly the
non-traveling star 禽 and a copy of 禽's home palace's earth-plate stems
(regardless of the path walk, which never touches palace 5). -/
theorem tianPanRotation_five (st anchor : Nat) (diPan : List (List Stem))
    (w : List (List Stem) × List (List StarName))
    (h : tianPanRotation st anchor diPan = some w) :
    getL w.2 5 = [.qin] ∧ getL w.1 5 = getL diPan (starGuxiang .qin) := by
  unfold tianPanRotation at h
  generalize hidx : List.findIdx? (fun q => decide (q = anchor)) LUO_SHU_PATH = o at h
  cases o with
  | none => exact absurd h (by simp)
  | some pathStartIndex =>
    rw [Option.some_inj] at h
    subst h
    have hw5 := tian_pan_walk_five st pathStartIndex diPan
    have hwl := tian_pan_walk_length st pathStartIndex diPan
    dsimp only []
    constructor
    · have hlen1 : (if findRuiPalace (tian_pan_walk st pathStartIndex diPan).2 ≠ -1 then
          (tian_pan_walk st pathStartIndex diPan).2.set
            (findRuiPalace (tian_pan_walk st pathStartIndex diPan).2).toNat
            (getL (tian_pan_walk st pathStartIndex diPan).2
              (findRuiPalace (tian_pan_walk st pathStartIndex diPan).2).toNat ++ [.qin])
        else (tian_pan_walk st pathStartIndex diPan).2).length = 10 := by
        split <;> simp [List.length_set, hwl.2]
      rw [getL_set_self _ _ _ (by rw [hlen1]; omega)]
      have hs1 : getL (if findRuiPalace (tian_pan_walk st pathStartIndex diPan).2 ≠ -1 then
          (tian_pan_walk st pathStartIndex diPan).2.set
            (findRuiPalace (tian_pan_walk st pathStartIndex diPan).2).toNat
            (getL (tian_pan_walk st pathStartIndex diPan).2
              (findRuiPalace (tian_pan_walk st pathStartIndex diPan).2).toNat ++ [.qin])
        else (tian_pan_walk st pathStartIndex diPan).2) 5 = [] := by
        split
        · next hne =>
          rw [getL_set_ne _ _ _ _
            (findRuiPalace_ne_five (tian_pan_walk st pathStartIndex diPan).2 hw5.2 hne)]
          exact hw5.2
        · exact hw5.2
      rw [hs1]
      rfl
    · rw [getL_set_self _ _ _ (by rw [hwl.1]; omega)]
      rw [hw5.1]
      rfl

/-- On success, palace 5 of `_layout_tian_pan_and_stars` holds exactly 禽
and a copy of 禽's home palace's earth-plate stems. -/
theorem layout_tian_pan_five (shiGan : Stem) (diPan : List (List Stem))
    (zf : StarEntry) (x : Xun) (w : List (List Stem) × List (List StarName))
    (h : layout_tian_pan_and_stars shiGan diPan zf x = some w) :
    getL w.2 5 = [.qin] ∧ getL w.1 5 = getL diPan (starGuxiang .qin) := by
  unfold layout_tian_pan_and_stars at h
  by_cases hp : find_stem_palace shiGan diPan x = -1
  · rw [if_pos hp] at h
    exact absurd h (by simp)
  · rw [if_neg hp] at h
    exact tianPanRotation_five _ _ _ _ h

/-- Reading a mapped `List.range 10` table at an index below 10. -/
theorem getD_range10_map {β : Type} [Inhabited β] (f : Nat → β) (i : Nat)
    (hi : i < 10) : ((List.range 10).map f).getD i default = f i := by
  interval_cases i <;> rfl

/-- Inversion of a successful `_internal_paipan` run: names every
intermediate value and exposes the assembled record. -/
theorem internal_paipan_inv (siZhu : SiZhu) (jieqi : JieQi) (r : ChartResult)
    (h : internal_paipan siZhu jieqi = some r) :
    ∃ yuan xun zfs baShenL tp baMenL kw,
      find_yuan siZhu.ri.1 siZhu.ri.2 = some yuan ∧
      find_shi_chen_xun siZhu.shi.1 siZhu.shi.2 = some xun ∧
      find_zhi_fu_zhi_shi xun (layout_di_pan (find_ju_shu jieqi yuan)) = some zfs ∧
      layout_ba_shen siZhu.shi.1 (layout_di_pan (find_ju_shu jieqi yuan))
        (find_ju_shu jieqi yuan) xun = some baShenL ∧
      layout_tian_pan_and_stars siZhu.shi.1
        (layout_di_pan (find_ju_shu jieqi yuan)) zfs.1 xun = some tp ∧
      layout_ba_men siZhu.shi.2 xun.zhi zfs.2.1 (find_ju_shu jieqi yuan) =
        some baMenL ∧
      find_kong_wang siZhu.ri siZhu.shi = some kw ∧
      r = { si_zhu := siZhu
            jieqi := jieqi
            ju_shu_info := find_ju_shu jieqi yuan
            shi_chen_xun := xun
            zhi_fu := zfs.1.cn
            zhi_shi := zfs.2.1
            ma_xing := find_ma_xing siZhu.shi.2
            kong_wang := kw
            palaces := (List.range 10).map (fun i => if i = 0 then {} else
              fillPalace (layout_di_pan (find_ju_shu jieqi yuan)) tp.1 tp.2
                baShenL baMenL i)
            side_annotations := calculate_annotations
              (layout_di_pan (find_ju_shu jieqi yuan)) tp.1 kw siZhu.yue.2
              (find_ma_xing siZhu.shi.2)
            maxing_chongdong_targets := analyze_maxing_chongdong
              (find_ma_xing siZhu.shi.2)
              (calculate_annotations (layout_di_pan (find_ju_shu jieqi yuan))
                tp.1 kw siZhu.yue.2 (find_ma_xing siZhu.shi.2))
            index := [] } := by
  unfold internal_paipan at h
  simp only [Option.bind_eq_some, Option.map_eq_some'] at h
  obtain ⟨yuan, hyuan, xun, hxun, zfs, hzfs, baShenL, hbs, tp, htp, baMenL,
    hbm, kw, hkw, hr⟩ := h
  exact ⟨yuan, xun, zfs, baShenL, tp, baMenL, kw, hyuan, hxun, hzfs, hbs, htp,
    hbm, hkw, hr.symm⟩

instance : Inhabited ChartResult :=
  ⟨{ si_zhu := ⟨(.jia, .zi), (.jia, .zi), (.jia, .zi), (.jia, .zi)⟩
     jieqi := .dongzhi
     ju_shu_info := ⟨.yang, 0⟩
     shi_chen_xun := ⟨.zi, .jia⟩
     zhi_fu := .peng
     zhi_shi := .xiu
     ma_xing := none
     kong_wang := ([], [])
     palaces := []
     side_annotations := fun _ => []
     maxing_chongdong_targets := []
     index := [] }⟩

/-- Counterexample to C7: in the concrete cast of `sampleSiZhu` at 小寒 the
palace-5 gate field is empty — it does not carry the gate borrowed from
palace 2's traditional counterpart (死, the gate whose home palace is 2),
because the eight-gate layout never writes palace 5 and nothing copies a
gate there. -/
theorem chart_c7_counterexample :
    (internal_paipan sampleSiZhu .xiaohan).map
      (fun r => (r.palaces.getD 5 default).gates) = some none ∧
    (baMen.find? (fun g => g.guxiang = 2)).map (fun g => g.cn) =
      some GateName.siG := by
  exact ⟨by decide, by decide⟩

/-- C7 as amended: for every successful cast, palace 5 never appears in any
path-walk output: its star list holds exactly the non-traveling star 禽,
its heaven-plate stems are a copy of 禽's home palace's earth-plate stems
(that home palace is 5 itself, so they equal palace 5's earth-plate stems),
and its god and gate fields stay empty — no star or gate is borrowed from
palace 2's counterpart into palace 5 (that counterpart is used only for the
chief star/gate when the 符头 palace is 5). -/
theorem chart_c7_center_fields (siZhu : SiZhu) (jieqi : JieQi) (r : ChartResult)
    (h : internal_paipan siZhu jieqi = some r) :
    (r.palaces.getD 5 default).stars = [.qin] ∧
    (r.palaces.getD 5 default).heaven_stems =
      (r.palaces.getD 5 default).earth_stems ∧
    (r.palaces.getD 5 default).gates = none ∧
    (r.palaces.getD 5 default).god = none := by
  obtain ⟨yuan, xun, zfs, baShenL, tp, baMenL, kw, hyuan, hxun, hzfs, hbs, htp,
    hbm, hkw, hr⟩ := internal_paipan_inv siZhu jieqi r h
  subst hr
  have h5 : (({ si_zhu := siZhu
                jieqi := jieqi
                ju_shu_info := find_ju_shu jieqi yuan
                shi_chen_xun := xun
                zhi_fu := zfs.1.cn
                zhi_shi := zfs.2.1
                ma_xing := find_ma_xing siZhu.shi.2
                kong_wang := kw
                palaces := (List.range 10).map (fun i => if i = 0 then {} else
                  fillPalace (layout_di_pan (find_ju_shu jieqi yuan)) tp.1 tp.2
                    baShenL baMenL i)
                side_annotations := calculate_annotations
                  (layout_di_pan (find_ju_shu jieqi yuan)) tp.1 kw siZhu.yue.2
                  (find_ma_xing siZhu.shi.2)
                maxing_chongdong_targets := analyze_maxing_chongdong
                  (find_ma_xing siZhu.shi.2)
                  (calculate_annotations (layout_di_pan (find_ju_shu jieqi yuan))
                    tp.1 kw siZhu.yue.2 (find_ma_xing siZhu.shi.2))
                index := [] } : ChartResult).palaces.getD 5 default) =
      fillPalace (layout_di_pan (find_ju_shu jieqi yuan)) tp.1 tp.2
        baShenL baMenL 5 := by
    rw [getD_range10_map _ 5 (by omega)]
    rfl
  rw [h5]
  unfold fillPalace
  have htp5 := layout_tian_pan_five _ _ _ _ _ htp
  refine ⟨htp5.1, ?_, ?_, ?_⟩
  · rw [htp5.2]
    rfl
  · exact (layout_ba_men_props _ _ _ _ _ hbm).2.1
  · exact (layout_ba_shen_props _ _ _ _ _ hbs).2.1

/-- Witness for the amended C7 at the concrete cast of `sampleSiZhu`. -/
theorem chart_c7_center_fields_witness :
    internal_paipan sampleSiZhu .xiaohan =
      some ((internal_paipan sampleSiZhu .xiaohan).getD default) ∧
    ((((internal_paipan sampleSiZhu .xiaohan).getD default).palaces.getD 5
        default).stars = [.qin] ∧
     (((internal_paipan sampleSiZhu .xiaohan).getD default).palaces.getD 5
        default).heaven_stems =
       (((internal_paipan sampleSiZhu .xiaohan).getD default).palaces.getD 5
        default).earth_stems ∧
     (((internal_paipan sampleSiZhu .xiaohan).getD default).palaces.getD 5
        default).gates = none ∧
     (((internal_paipan sampleSiZhu .xiaohan).getD default).palaces.getD 5
        default).god = none) :=
  ⟨rfl, chart_c7_center_fields sampleSiZhu .xiaohan _ rfl⟩

/-- Every pattern number in the solar-term table lies in 1..9. -/
theorem ju_shu_bounds (j : JieQi) (y : Yuan) :
    1 ≤ (find_ju_shu j y).ju ∧ (find_ju_shu j y).ju ≤ 9 := by
  revert y; revert j; decide

/-- On every reachable earth plate each palace 1..9 holds at least one stem. -/
theorem di_pan_nonempty (d : Dun) (ju : Nat) (hj : ju < 10) (h1 : 1 ≤ ju)
    (i : Nat) (hi : i < 10) (hi1 : 1 ≤ i) :
    getL (layout_di_pan ⟨d, ju⟩) i ≠ [] := by
  revert hi1; revert hi; revert i; revert h1; revert hj; revert ju; revert d
  decide

set_option maxHeartbeats 2000000 in
/-- C10: the cast pipeline never invokes `_build_index`: every successful
cast returns a result whose reverse-lookup index field still equals the
empty value `ChartResult.__init__` gave it, while the per-palace data is
populated (every palace 1..9 carries its earth-plate stems). -/
theorem chart_c10_index_never_built (siZhu : SiZhu) (jieqi : JieQi)
    (r : ChartResult) (h : internal_paipan siZhu jieqi = some r) :
    r.index = [] ∧
    ∀ i, i < 10 → 1 ≤ i → (r.palaces.getD i default).earth_stems ≠ [] := by
  obtain ⟨yuan, xun, zfs, baShenL, tp, baMenL, kw, hyuan, hxun, hzfs, hbs, htp,
    hbm, hkw, hr⟩ := internal_paipan_inv siZhu jieqi r h
  subst hr
  refine ⟨rfl, ?_⟩
  intro i hi h1
  have hgd : (((List.range 10).map (fun i2 => if i2 = 0 then {} else
      fillPalace (layout_di_pan (find_ju_shu jieqi yuan)) tp.1 tp.2
        baShenL baMenL i2)).getD i default) =
      fillPalace (layout_di_pan (find_ju_shu jieqi yuan)) tp.1 tp.2
        baShenL baMenL i := by
    rw [getD_range10_map _ i hi]
    rw [if_neg (by omega)]
  rw [hgd]
  have hb := ju_shu_bounds jieqi yuan
  have hne := di_pan_nonempty (find_ju_shu jieqi yuan).dun
    (find_ju_shu jieqi yuan).ju (by omega) hb.1 i hi h1
  have heta : (⟨(find_ju_shu jieqi yuan).dun, (find_ju_shu jieqi yuan).ju⟩ :
      JuShuInfo) = find_ju_shu jieqi yuan := rfl
  rw [heta] at hne
  have hfp : (fillPalace (layout_di_pan (find_ju_shu jieqi yuan)) tp.1 tp.2
      baShenL baMenL i).earth_stems =
      getL (layout_di_pan (find_ju_shu jieqi yuan)) i := rfl
  rw [hfp]
  exact hne

/-- Witness for C10 at the concrete cast of `sampleSiZhu`. -/
theorem chart_c10_index_never_built_witness :
    internal_paipan sampleSiZhu .xiaohan =
      some ((internal_paipan sampleSiZhu .xiaohan).getD default) ∧
    (((internal_paipan sampleSiZhu .xiaohan).getD default).index = [] ∧
     ∀ i, i < 10 → 1 ≤ i →
       ((((internal_paipan sampleSiZhu .xiaohan).getD default).palaces.getD i
         default).earth_stems ≠ [])) :=
  ⟨rfl, chart_c10_index_never_built sampleSiZhu .xiaohan _ rfl⟩

/-- C8 evaluated at a failing input: the cast of `sampleSiZhu` at 小寒
returns a result whose palace fields are populated (palace 1 carries the
god 地), yet its reverse-lookup index is the empty value — the pipeline
never calls `_build_index` — and even invoking `_build_index` on the
returned result yields an empty index, because the pipeline populates only
the legacy palace attributes while `_build_index` reads the expert-model
attributes (`zhi_fu`, `tian_pan_stars`, ...), which stay empty. -/
theorem chart_c8_index_not_built :
    (internal_paipan sampleSiZhu .xiaohan).map (fun r => r.index) = some [] ∧
    (internal_paipan sampleSiZhu .xiaohan).map
      (fun r => (r.palaces.getD 1 default).god) = some (some .di) ∧
    (internal_paipan sampleSiZhu .xiaohan).map
      (fun r => build_index_flat r) = some [] := by
  exact ⟨by decide, by decide, by decide⟩

/-- Split a list at the first element satisfying a predicate. -/
theorem exists_first_split {α : Type} (p : α → Prop) [DecidablePred p]
    (l : List α) (h : ∃ a ∈ l, p a) :
    ∃ l1 x l2, l = l1 ++ x :: l2 ∧ p x ∧ ∀ y ∈ l1, ¬ p y := by
  induction l with
  | nil => obtain ⟨a, ha, _⟩ := h; exact absurd ha (List.not_mem_nil a)
  | cons b bs ih =>
    by_cases hb : p b
    · exact ⟨[], b, bs, rfl, hb, by simp⟩
    · have hex : ∃ a ∈ bs, p a := by
        obtain ⟨a, ha, hpa⟩ := h
        rcases List.mem_cons.mp ha with rfl | ha2
        · exact absurd hpa hb
        · exact ⟨a, ha2, hpa⟩
      obtain ⟨l1, x, l2, heq, hx, hl1⟩ := ih hex
      refine ⟨b :: l1, x, l2, by rw [heq]; rfl, hx, ?_⟩
      intro y hy
      rcases List.mem_cons.mp hy with rfl | hy2
      · exact hb
      · exact hl1 y hy2

/-- A non-void element of the rebuild loop never changes the
`processed_kong` flag and only appends records typed `rumu` or with its own
type. -/
theorem mergeStep_nonvoid (full : List Annotation) (zhi : Branch)
    (st : MergeState) (a : Annotation)
    (ha1 : ¬(a.atype = AnnType.rikong ∨ a.atype = AnnType.shikong)) :
    (mergeStep full zhi st a).pk = st.pk ∧
    ∃ new, (mergeStep full zhi st a).acc = st.acc ++ new ∧
      ∀ x ∈ new, x.atype = AnnType.rumu ∨ x.atype = a.atype := by
  unfold mergeStep
  split_ifs with hc1 hc2 hc3 hc4 hc5
  · exact absurd hc1.1 ha1
  · exact absurd hc1.1 ha1
  · refine ⟨rfl, _, rfl, ?_⟩
    intro x hx
    rw [List.mem_map] at hx
    obtain ⟨k, _, rfl⟩ := hx
    exact Or.inl rfl
  · exact ⟨rfl, [⟨a.atype, .shuangT a.text, a.strike⟩], rfl, by
      intro x hx
      rcases List.mem_singleton.mp hx with rfl
      exact Or.inr rfl⟩
  · exact ⟨rfl, [], (List.append_nil _).symm, by simp⟩
  · exact ⟨rfl, [a], rfl, by
      intro x hx
      rcases List.mem_singleton.mp hx with rfl
      exact Or.inr rfl⟩
  · exact ⟨rfl, [], (List.append_nil _).symm, by simp⟩

/-- Once `processed_kong` is set, a void record is dropped by the rebuild
loop, provided its type is not doubled in the branch's list. -/
theorem mergeStep_void_skip (full : List Annotation) (zhi : Branch)
    (st : MergeState) (a : Annotation)
    (hv : a.atype = AnnType.rikong ∨ a.atype = AnnType.shikong)
    (hpk : st.pk = true)
    (hc1 : typeCount full AnnType.rikong ≤ 1)
    (hc2 : typeCount full AnnType.shikong ≤ 1) :
    mergeStep full zhi st a = st := by
  unfold mergeStep
  rw [if_neg, if_neg, if_neg, if_neg]
  · rintro (⟨hne1, hne2, _⟩ | ⟨hpkf, _⟩)
    · rcases hv with h | h
      · exact hne1 h
      · exact hne2 h
    · rw [hpk] at hpkf
      exact absurd hpkf (by simp)
  · rintro ⟨hcount, _⟩
    rcases hv with h | h <;> rw [h] at hcount <;> omega
  · rintro ⟨hrumu, _, _⟩
    rcases hv with h | h <;> rw [h] at hrumu <;> simp at hrumu
  · rintro ⟨_, hpkf⟩
    rw [hpk] at hpkf
    exact absurd hpkf (by simp)

/-- The first void record processed while `processed_kong` is still unset,
in a list carrying both a day-void and an hour-void record, is replaced by
the single merged double-void record and sets the flag. -/
theorem mergeStep_first_void (full : List Annotation) (zhi : Branch)
    (st : MergeState) (a : Annotation)
    (hv : a.atype = AnnType.rikong ∨ a.atype = AnnType.shikong)
    (hpk : st.pk = false)
    (hri : full.any (fun x => x.atype = AnnType.rikong) = true)
    (hshi : full.any (fun x => x.atype = AnnType.shikong) = true) :
    mergeStep full zhi st a =
      ⟨st.acc ++ [⟨AnnType.shuangkong, AnnText.shuangKongT zhi,
        full.any (fun x =>
          (x.atype = AnnType.rikong ∨ x.atype = AnnType.shikong) ∧ x.strike)⟩],
       true, st.pr⟩ := by
  unfold mergeStep
  rw [if_pos ⟨hv, hpk⟩, if_pos ⟨by rw [hri], by rw [hshi]⟩]

/-- Folding the rebuild loop over non-void records keeps `processed_kong`
unset and appends only records typed `rumu` or typed like some processed
record. -/
theorem merge_fold_nonvoid (full : List Annotation) (zhi : Branch) :
    ∀ (l1 : List Annotation),
      (∀ y ∈ l1, ¬(y.atype = AnnType.rikong ∨ y.atype = AnnType.shikong)) →
      ∀ st : MergeState,
        (l1.foldl (mergeStep full zhi) st).pk = st.pk ∧
        ∃ new, (l1.foldl (mergeStep full zhi) st).acc = st.acc ++ new ∧
          ∀ x ∈ new, x.atype = AnnType.rumu ∨ ∃ y ∈ l1, x.atype = y.atype := by
  intro l1
  induction l1 with
  | nil =>
    intro _ st
    exact ⟨rfl, [], (List.append_nil _).symm, by simp⟩
  | cons y ys ih =>
    intro h st
    obtain ⟨hpk1, new1, hacc1, hmem1⟩ :=
      mergeStep_nonvoid full zhi st y (h y (by simp))
    obtain ⟨hpk2, new2, hacc2, hmem2⟩ :=
      ih (fun z hz => h z (by simp [hz])) (mergeStep full zhi st y)
    rw [List.foldl_cons]
    refine ⟨by rw [hpk2, hpk1], new1 ++ new2, ?_, ?_⟩
    · rw [hacc2, hacc1, List.append_assoc]
    · intro x hx
      rcases List.mem_append.mp hx with hx2 | hx2
      · rcases hmem1 x hx2 with h1 | h1
        · exact Or.inl h1
        · exact Or.inr ⟨y, by simp, h1⟩
      · rcases hmem2 x hx2 with h1 | h1
        · exact Or.inl h1
        · obtain ⟨z, hz, hzz⟩ := h1
          exact Or.inr ⟨z, by simp [hz], hzz⟩

/-- After `processed_kong` is set, folding the rebuild loop over any
remaining records appends nothing of the void or merged-void types (void
records are dropped, every other record contributes only its own type or
`rumu`). -/
theorem merge_fold_after (full : List Annotation) (zhi : Branch)
    (hc1 : typeCount full AnnType.rikong ≤ 1)
    (hc2 : typeCount full AnnType.shikong ≤ 1) :
    ∀ (l2 : List Annotation),
      (∀ y ∈ l2, y.atype ≠ AnnType.shuangkong) →
      ∀ st : MergeState, st.pk = true →
        (l2.foldl (mergeStep full zhi) st).pk = true ∧
        ∃ new, (l2.foldl (mergeStep full zhi) st).acc = st.acc ++ new ∧
          ∀ x ∈ new, x.atype ≠ AnnType.shuangkong ∧
            ¬(x.atype = AnnType.rikong ∨ x.atype = AnnType.shikong) := by
  intro l2
  induction l2 with
  | nil =>
    intro _ st hpk
    exact ⟨hpk, [], (List.append_nil _).symm, by simp⟩
  | cons y ys ih =>
    intro h st hpk
    rw [List.foldl_cons]
    by_cases hv : y.atype = AnnType.rikong ∨ y.atype = AnnType.shikong
    · rw [mergeStep_void_skip full zhi st y hv hpk hc1 hc2]
      exact ih (fun z hz => h z (by simp [hz])) st hpk
    · obtain ⟨hpk1, new1, hacc1, hmem1⟩ := mergeStep_nonvoid full zhi st y hv
      obtain ⟨hpk2, new2, hacc2, hmem2⟩ :=
        ih (fun z hz => h z (by simp [hz])) (mergeStep full zhi st y)
          (by rw [hpk1, hpk])
      refine ⟨by rw [hpk2], new1 ++ new2, ?_, ?_⟩
      · rw [hacc2, hacc1, List.append_assoc]
      · intro x hx
        rcases List.mem_append.mp hx with hx2 | hx2
        · rcases hmem1 x hx2 with h1 | h1
          · rw [h1]; exact ⟨by simp, by simp⟩
          · rw [h1]
            exact ⟨h y (by simp), hv⟩
        · exact hmem2 x hx2

/-- The merge pass on a branch list holding exactly one day-void record and
exactly one hour-void record (and no pre-existing merged record) produces
exactly one merged double-void record — struck iff some contributing void
record was struck — and leaves no unmerged void record in the output. -/
theorem merge_double_void (zhi : Branch) (l : List Annotation)
    (h1 : (l.filter (fun a => a.atype = AnnType.rikong)).length = 1)
    (h2 : (l.filter (fun a => a.atype = AnnType.shikong)).length = 1)
    (h3 : ∀ a ∈ l, a.atype ≠ AnnType.shuangkong) :
    (mergeBranch zhi l).filter (fun a => a.atype = AnnType.shuangkong) =
      [⟨AnnType.shuangkong, AnnText.shuangKongT zhi,
        l.any (fun x =>
          (x.atype = AnnType.rikong ∨ x.atype = AnnType.shikong) ∧ x.strike)⟩] ∧
    ∀ a ∈ mergeBranch zhi l,
      ¬(a.atype = AnnType.rikong ∨ a.atype = AnnType.shikong) := by
  have hr0 : ∃ x ∈ l, x.atype = AnnType.rikong := by
    have hne : l.filter (fun a => a.atype = AnnType.rikong) ≠ [] := by
      intro hnil
      rw [hnil] at h1
      simp at h1
    obtain ⟨x, hx⟩ := List.exists_mem_of_ne_nil _ hne
    rw [List.mem_filter] at hx
    exact ⟨x, hx.1, by simpa using hx.2⟩
  have hs0 : ∃ x ∈ l, x.atype = AnnType.shikong := by
    have hne : l.filter (fun a => a.atype = AnnType.shikong) ≠ [] := by
      intro hnil
      rw [hnil] at h2
      simp at h2
    obtain ⟨x, hx⟩ := List.exists_mem_of_ne_nil _ hne
    rw [List.mem_filter] at hx
    exact ⟨x, hx.1, by simpa using hx.2⟩
  have hlen : ¬ l.length ≤ 1 := by
    intro hle
    match l, h1, h2, hr0, hs0, hle with
    | [], h1, _, _, _, _ => simp at h1
    | [x], _, _, ⟨r, hr, hra⟩, ⟨s, hs, hsa⟩, _ =>
      have hrx : r = x := by simpa using hr
      have hsx : s = x := by simpa using hs
      rw [hrx] at hra
      rw [hsx] at hsa
      rw [hra] at hsa
      simp at hsa
    | x :: y :: rest, _, _, _, _, hle => simp at hle
  unfold mergeBranch
  rw [if_neg hlen]
  obtain ⟨l1, v, l2, hsplit, hv, hl1⟩ := exists_first_split
    (fun a => a.atype = AnnType.rikong ∨ a.atype = AnnType.shikong) l
    (by obtain ⟨r, hr, hra⟩ := hr0; exact ⟨r, hr, Or.inl hra⟩)
  have hfold : l.foldl (mergeStep l zhi) ⟨[], false, false⟩ =
      (l1 ++ v :: l2).foldl (mergeStep l zhi) ⟨[], false, false⟩ := by
    rw [← hsplit]
  rw [hfold, List.foldl_append, List.foldl_cons]
  obtain ⟨hpkA, newA, haccA, hmemA⟩ :=
    merge_fold_nonvoid l zhi l1 hl1 ⟨[], false, false⟩
  have hany_ri : l.any (fun x => x.atype = AnnType.rikong) = true := by
    rw [List.any_eq_true]
    obtain ⟨r, hr, hra⟩ := hr0
    exact ⟨r, hr, by simp [hra]⟩
  have hany_shi : l.any (fun x => x.atype = AnnType.shikong) = true := by
    rw [List.any_eq_true]
    obtain ⟨s, hs, hsa⟩ := hs0
    exact ⟨s, hs, by simp [hsa]⟩
  rw [mergeStep_first_void l zhi (l1.foldl (mergeStep l zhi) ⟨[], false, false⟩)
    v hv (by rw [hpkA]) hany_ri hany_shi]
  have hc1le : typeCount l AnnType.rikong ≤ 1 := by
    unfold typeCount
    omega
  have hc2le : typeCount l AnnType.shikong ≤ 1 := by
    unfold typeCount
    omega
  have hl2shuang : ∀ y ∈ l2, y.atype ≠ AnnType.shuangkong := by
    intro y hy
    refine h3 y ?_
    rw [hsplit]
    simp [hy]
  obtain ⟨hpkB, newB, haccB, hmemB⟩ :=
    merge_fold_after l zhi hc1le hc2le l2 hl2shuang
      ⟨(l1.foldl (mergeStep l zhi) ⟨[], false, false⟩).acc ++
        [⟨AnnType.shuangkong, AnnText.shuangKongT zhi,
          l.any (fun x =>
            (x.atype = AnnType.rikong ∨ x.atype = AnnType.shikong) ∧
              x.strike)⟩],
       true, (l1.foldl (mergeStep l zhi) ⟨[], false, false⟩).pr⟩ rfl
  dsimp only [] at haccB
  rw [haccB, haccA]
  have hnewA : ∀ x ∈ newA, x.atype ≠ AnnType.shuangkong ∧
      ¬(x.atype = AnnType.rikong ∨ x.atype = AnnType.shikong) := by
    intro x hx
    rcases hmemA x hx with hxa | ⟨y, hy, hxy⟩
    · rw [hxa]
      exact ⟨by simp, by simp⟩
    · have hyl : y ∈ l := by
        rw [hsplit]
        simp [hy]
      rw [hxy]
      exact ⟨h3 y hyl, hl1 y hy⟩
  constructor
  · rw [List.filter_append, List.filter_append, List.filter_append]
    have hfA : newA.filter (fun a => a.atype = AnnType.shuangkong) = [] := by
      rw [List.filter_eq_nil_iff]
      intro a ha
      simp only [decide_eq_true_eq]
      exact (hnewA a ha).1
    have hfB : newB.filter (fun a => a.atype = AnnType.shuangkong) = [] := by
      rw [List.filter_eq_nil_iff]
      intro a ha
      simp only [decide_eq_true_eq]
      exact (hmemB a ha).1
    rw [hfA, hfB]
    simp
  · intro a ha
    simp only [List.nil_append, List.mem_append] at ha
    rcases ha with (ha | ha) | ha
    · exact (hnewA a ha).2
    · rcases List.mem_singleton.mp ha with rfl
      simp
    · exact (hmemB a ha).2

/-- Applying an emission list appends, at each branch, exactly the records
emitted at that branch, in order. -/
theorem applyEmissions_apply (es : List Emission) :
    ∀ (annos : Branch → List Annotation) (b : Branch),
      applyEmissions annos es b =
        annos b ++ (es.filter (fun e => e.1 = b)).map (fun e => e.2) := by
  induction es with
  | nil =>
    intro annos b
    simp [applyEmissions]
  | cons e es ih =>
    intro annos b
    unfold applyEmissions
    rw [List.foldl_cons]
    have ih2 := ih (appendAnn annos e.1 e.2) b
    unfold applyEmissions at ih2
    rw [ih2]
    unfold appendAnn
    by_cases hb : e.1 = b
    · rw [List.filter_cons_of_pos (by simp [hb]), if_pos hb.symm,
        List.map_cons, List.append_assoc]
      rfl
    · rw [List.filter_cons_of_neg (by simp [hb]), if_neg (fun hc => hb hc.symm)]

/-- All clash-analyzer emissions are typed `liuji`. -/
theorem liuJiEmissions_types (dp tp : List (List Stem)) :
    ∀ e ∈ liuJiEmissions dp tp, e.2.atype = AnnType.liuji := by
  intro e he
  unfold liuJiEmissions at he
  rw [List.mem_flatMap] at he
  obtain ⟨r, _, he2⟩ := he
  by_cases hc : r.1 ∈ getL tp r.2.1 ++ getL dp r.2.1
  · rw [if_pos hc] at he2
    rcases List.mem_singleton.mp he2 with rfl
    rfl
  · rw [if_neg hc] at he2
    exact absurd he2 (List.not_mem_nil _)

/-- All tomb-analyzer emissions are typed `rumu`. -/
theorem ruMuEmissions_types (dp tp : List (List Stem)) :
    ∀ e ∈ ruMuEmissions dp tp, e.2.atype = AnnType.rumu := by
  intro e he
  unfold ruMuEmissions at he
  rw [List.mem_flatMap] at he
  obtain ⟨r, _, he2⟩ := he
  rw [List.mem_flatMap] at he2
  obtain ⟨g, _, he3⟩ := he2
  by_cases hc : g ∈ r.2.1
  · rw [if_pos hc] at he3
    rcases List.mem_singleton.mp he3 with rfl
    rfl
  · rw [if_neg hc] at he3
    exact absurd he3 (List.not_mem_nil _)

/-- All month/horse-analyzer emissions are typed `yueling` or `maxing`. -/
theorem yueMaEmissions_types (yue : Branch) (ma : Option Branch) :
    ∀ e ∈ yueMaEmissions yue ma,
      e.2.atype = AnnType.yueling ∨ e.2.atype = AnnType.maxing := by
  intro e he
  unfold yueMaEmissions at he
  rcases List.mem_append.mp he with he2 | he2
  · rcases List.mem_singleton.mp he2 with rfl
    exact Or.inl rfl
  · cases ma with
    | none => exact absurd he2 (List.not_mem_nil _)
    | some m =>
      rcases List.mem_singleton.mp he2 with rfl
      exact Or.inr rfl

/-- Filtering one void-analyzer half at a branch yields one record per
occurrence of that branch in the void list. -/
theorem kong_filter_map (L : List Branch) (yue b : Branch) (t : AnnType)
    (tx : AnnText) :
    ((L.map (fun kz => ((kz, ⟨t, tx, kz = yue⟩) : Emission))).filter
      (fun e => e.1 = b)).map (fun e => e.2) =
    List.replicate (L.count b) ⟨t, tx, decide (b = yue)⟩ := by
  induction L with
  | nil => simp
  | cons k ks ih =>
    by_cases hk : k = b
    · subst hk
      rw [List.map_cons, List.filter_cons_of_pos (by simp), List.map_cons, ih,
        List.count_cons_self, List.replicate_succ]
    · rw [List.map_cons, List.filter_cons_of_neg (by simp [hk]), ih,
        List.count_cons_of_ne (fun hc => hk hc.symm)]

/-- The pre-merge annotation list of any branch decomposes into clash
records, tomb records, one void record per occurrence of the branch in each
void list, and month/horse records — in analyzer order. -/
theorem pre_merge_at (dp tp : List (List Stem)) (kw : List Branch × List Branch)
    (yue : Branch) (ma : Option Branch) (b : Branch) :
    ∃ L1 L2 L4 : List Annotation,
      applyEmissions (fun _ => [])
        (liuJiEmissions dp tp ++ ruMuEmissions dp tp ++
         kongWangEmissions kw yue ++ yueMaEmissions yue ma) b =
        L1 ++ L2 ++
          (List.replicate (kw.1.count b)
            ⟨AnnType.rikong, AnnText.riKongT, decide (b = yue)⟩ ++
           List.replicate (kw.2.count b)
            ⟨AnnType.shikong, AnnText.shiKongT, decide (b = yue)⟩) ++ L4 ∧
      (∀ x ∈ L1, x.atype = AnnType.liuji) ∧
      (∀ x ∈ L2, x.atype = AnnType.rumu) ∧
      (∀ x ∈ L4, x.atype = AnnType.yueling ∨ x.atype = AnnType.maxing) := by
  rw [applyEmissions_apply]
  refine ⟨((liuJiEmissions dp tp).filter (fun e => e.1 = b)).map (fun e => e.2),
          ((ruMuEmissions dp tp).filter (fun e => e.1 = b)).map (fun e => e.2),
          ((yueMaEmissions yue ma).filter (fun e => e.1 = b)).map (fun e => e.2),
          ?_, ?_, ?_, ?_⟩
  · rw [List.filter_append, List.filter_append, List.filter_append,
      List.map_append, List.map_append, List.map_append, List.nil_append]
    congr 1
    congr 1
    unfold kongWangEmissions
    rw [List.filter_append, List.map_append, kong_filter_map, kong_filter_map]
  · intro x hx
    rw [List.mem_map] at hx
    obtain ⟨e, he, rfl⟩ := hx
    exact liuJiEmissions_types dp tp e (List.mem_of_mem_filter he)
  · intro x hx
    rw [List.mem_map] at hx
    obtain ⟨e, he, rfl⟩ := hx
    exact ruMuEmissions_types dp tp e (List.mem_of_mem_filter he)
  · intro x hx
    rw [List.mem_map] at hx
    obtain ⟨e, he, rfl⟩ := hx
    exact yueMaEmissions_types yue ma e (List.mem_of_mem_filter he)

/-- C2: in every cast whose day-void list and hour-void list (two branches
each, duplicate-free, per the sexagenary table) share a branch, that
branch's final annotation list carries exactly one merged double-void
record — struck iff a contributing void record was struck, i.e. iff the
branch equals the month branch — and no separate day-void or hour-void
record survives the merge. -/
theorem chart_c2_void_merge (diPan tianPan : List (List Stem))
    (riK shiK : List Branch) (yue : Branch) (ma : Option Branch) (b : Branch)
    (hnr : riK.Nodup) (hns : shiK.Nodup) (hbr : b ∈ riK) (hbs : b ∈ shiK) :
    (calculate_annotations diPan tianPan (riK, shiK) yue ma b).filter
        (fun a => a.atype = AnnType.shuangkong) =
      [⟨AnnType.shuangkong, AnnText.shuangKongT b, decide (b = yue)⟩] ∧
    ∀ a ∈ calculate_annotations diPan tianPan (riK, shiK) yue ma b,
      ¬(a.atype = AnnType.rikong ∨ a.atype = AnnType.shikong) := by
  obtain ⟨L1, L2, L4, hpre, hL1, hL2, hL4⟩ :=
    pre_merge_at diPan tianPan (riK, shiK) yue ma b
  have hca : calculate_annotations diPan tianPan (riK, shiK) yue ma b =
      mergeBranch b (applyEmissions (fun _ => [])
        (liuJiEmissions diPan tianPan ++ ruMuEmissions diPan tianPan ++
         kongWangEmissions (riK, shiK) yue ++ yueMaEmissions yue ma) b) := rfl
  have hc1 : List.count b riK = 1 := List.count_eq_one_of_mem hnr hbr
  have hc2 : List.count b shiK = 1 := List.count_eq_one_of_mem hns hbs
  rw [hc1, hc2, List.replicate_one, List.replicate_one] at hpre
  rw [hca, hpre]
  set ri : Annotation := ⟨AnnType.rikong, AnnText.riKongT, decide (b = yue)⟩
    with hri
  set shi : Annotation := ⟨AnnType.shikong, AnnText.shiKongT, decide (b = yue)⟩
    with hshi
  set L : List Annotation := L1 ++ L2 ++ ([ri] ++ [shi]) ++ L4 with hL
  have e1ri : L1.filter (fun a => a.atype = AnnType.rikong) = [] :=
    List.filter_eq_nil_iff.mpr (fun a ha => by simp [hL1 a ha])
  have e2ri : L2.filter (fun a => a.atype = AnnType.rikong) = [] :=
    List.filter_eq_nil_iff.mpr (fun a ha => by simp [hL2 a ha])
  have e4ri : L4.filter (fun a => a.atype = AnnType.rikong) = [] :=
    List.filter_eq_nil_iff.mpr (fun a ha => by
      rcases hL4 a ha with h | h <;> simp [h])
  have e1shi : L1.filter (fun a => a.atype = AnnType.shikong) = [] :=
    List.filter_eq_nil_iff.mpr (fun a ha => by simp [hL1 a ha])
  have e2shi : L2.filter (fun a => a.atype = AnnType.shikong) = [] :=
    List.filter_eq_nil_iff.mpr (fun a ha => by simp [hL2 a ha])
  have e4shi : L4.filter (fun a => a.atype = AnnType.shikong) = [] :=
    List.filter_eq_nil_iff.mpr (fun a ha => by
      rcases hL4 a ha with h | h <;> simp [h])
  have hfri : L.filter (fun a => a.atype = AnnType.rikong) = [ri] := by
    rw [hL, List.filter_append, List.filter_append, List.filter_append,
      List.filter_append, e1ri, e2ri, e4ri]
    simp [hri, hshi]
  have hfshi : L.filter (fun a => a.atype = AnnType.shikong) = [shi] := by
    rw [hL, List.filter_append, List.filter_append, List.filter_append,
      List.filter_append, e1shi, e2shi, e4shi]
    simp [hri, hshi]
  have hnos : ∀ a ∈ L, a.atype ≠ AnnType.shuangkong := by
    intro a ha
    rw [hL] at ha
    simp only [List.mem_append] at ha
    rcases ha with ((ha | ha) | (ha | ha)) | ha
    · simp [hL1 a ha]
    · simp [hL2 a ha]
    · rcases List.mem_singleton.mp ha with rfl
      simp [hri]
    · rcases List.mem_singleton.mp ha with rfl
      simp [hshi]
    · rcases hL4 a ha with h | h <;> simp [h]
  obtain ⟨hm1, hm2⟩ := merge_double_void b L
    (by rw [hfri]; rfl) (by rw [hfshi]; rfl) hnos
  have hstrike : L.any (fun x =>
      (x.atype = AnnType.rikong ∨ x.atype = AnnType.shikong) ∧ x.strike) =
      decide (b = yue) := by
    rw [hL]
    rw [List.any_append, List.any_append, List.any_append, List.any_append]
    have ha1 : L1.any (fun x =>
        (x.atype = AnnType.rikong ∨ x.atype = AnnType.shikong) ∧ x.strike) =
        false := by
      rw [List.any_eq_false]
      intro x hx
      simp [hL1 x hx]
    have ha2 : L2.any (fun x =>
        (x.atype = AnnType.rikong ∨ x.atype = AnnType.shikong) ∧ x.strike) =
        false := by
      rw [List.any_eq_false]
      intro x hx
      simp [hL2 x hx]
    have ha4 : L4.any (fun x =>
        (x.atype = AnnType.rikong ∨ x.atype = AnnType.shikong) ∧ x.strike) =
        false := by
      rw [List.any_eq_false]
      intro x hx
      rcases hL4 x hx with h | h <;> simp [h]
    rw [ha1, ha2, ha4]
    by_cases hby : b = yue <;> simp [hri, hshi, hby]
  rw [hstrike] at hm1
  exact ⟨hm1, hm2⟩

/-- Witness for C2: both void lists are [辰, 巳] (day and hour pillars in
the same decade), the shared branch is 辰, the month branch is 子. -/
theorem chart_c2_void_merge_witness :
    ([Branch.chen, Branch.siB].Nodup ∧ [Branch.chen, Branch.siB].Nodup ∧
     Branch.chen ∈ [Branch.chen, Branch.siB] ∧
     Branch.chen ∈ [Branch.chen, Branch.siB]) ∧
    ((calculate_annotations (List.replicate 10 []) (List.replicate 10 [])
        ([Branch.chen, Branch.siB], [Branch.chen, Branch.siB]) Branch.zi
        (some Branch.siB) Branch.chen).filter
        (fun a => a.atype = AnnType.shuangkong) =
      [⟨AnnType.shuangkong, AnnText.shuangKongT Branch.chen,
        decide (Branch.chen = Branch.zi)⟩] ∧
     ∀ a ∈ calculate_annotations (List.replicate 10 []) (List.replicate 10 [])
        ([Branch.chen, Branch.siB], [Branch.chen, Branch.siB]) Branch.zi
        (some Branch.siB) Branch.chen,
       ¬(a.atype = AnnType.rikong ∨ a.atype = AnnType.shikong)) :=
  ⟨⟨by decide, by decide, by decide, by decide⟩,
   chart_c2_void_merge (List.replicate 10 []) (List.replicate 10 [])
     [Branch.chen, Branch.siB] [Branch.chen, Branch.siB] Branch.zi
     (some Branch.siB) Branch.chen (by decide) (by decide) (by decide)
     (by decide)⟩
